import Mathlib

/-!
# Verification of the ft_stok referral-extraction pipeline

A shallow embedding, in Lean 4, of the response-processing core of the
`ft_stok` repository (a Streamlit demo that sends medical referral letters to
a generative-model API and renders the model's JSON reply).

The embedded code:

* the Markdown code-fence stripping and whitespace trimming applied to every
  raw model reply (`src/app.py` lines 310-321 and 360-370, `src/voice_soap.py`
  lines 85-95) — the two `str.strip()` calls, the `startswith`/slice fence
  removal, modelled character-exactly on `List Char`;
* a model of Python's `json.loads` (strict JSON with Python's extra
  `NaN`/`Infinity`/`-Infinity` literals, last-duplicate-key-wins dict
  building), used by all three reply-processing paths;
* the extraction entry points `extract_info_from_text` (`src/app.py` 333-380)
  and `extract_info_from_multiple_files` (`src/app.py` 253-331), with the
  external model client abstracted as an oracle function;
* the full prompt template `EXTRACTION_PROMPT` (`src/app.py` 50-240) and the
  voice variant's `SOAP_PROMPT_TEMPLATE` (`src/voice_soap.py` 36-60),
  transcribed verbatim (literal braces written with hex escapes);
* a model of Python's `str.format` replacement-field scanning, used by
  `create_soap_from_text` (`src/voice_soap.py` 78-105).

Numbers are kept as their source lexemes (the repository's claims never
depend on numeric values, and Python's float semantics are out of scope);
lone `\uXXXX` surrogate escapes, which Lean's `Char` cannot carry, decode to
`Char.ofNat`'s fallback — no theorem below depends on either corner.
-/

set_option maxRecDepth 100000
set_option maxHeartbeats 16000000

namespace FtStok

/-! ## Python `str.strip()` (no arguments): trim Unicode whitespace at both ends -/

/-- The characters Python's `str.strip()` removes: the Unicode whitespace set
(`str.isspace`): ASCII space and `\t\n\v\f\r`, the file/group/record/unit
separators `\x1c`-`\x1f`, NEL `\x85`, and the Unicode space characters. -/
def pyIsSpace (c : Char) : Bool :=
  let n := c.toNat
  (9 ≤ n && n ≤ 13) || n == 32 || (28 ≤ n && n ≤ 31) || n == 0x85 || n == 0xa0 ||
  n == 0x1680 || (0x2000 ≤ n && n ≤ 0x200a) || n == 0x2028 || n == 0x2029 ||
  n == 0x202f || n == 0x205f || n == 0x3000

/-- `str.strip()` on a character list: drop whitespace from the front, then
from the back (implemented by reversing). -/
def pyStripL (l : List Char) : List Char :=
  ((l.dropWhile pyIsSpace).reverse.dropWhile pyIsSpace).reverse

/-- Python `s.startswith(pre)`. -/
def pyStartswith (l pre : List Char) : Bool :=
  match pre, l with
  | [], _ => true
  | _ :: _, [] => false
  | p :: ps, c :: cs => p == c && pyStartswith cs ps

/-- Python `s.endswith(suf)`. -/
def pyEndswith (l suf : List Char) : Bool :=
  pyStartswith l.reverse suf.reverse

/-- The seven characters of the opening fence token the code tests first
(the string is Python's `"` followed by three backticks and `json`). -/
def fenceJsonTok : List Char := "```json".data

/-- The three-backtick fence token. -/
def fenceTok : List Char := "```".data

/-- The fence-stripping + trimming block that every reply-processing path of
the repository applies to the raw model reply, transcribed from
`src/app.py` lines 311-321 (the identical block recurs at `src/app.py`
360-370 and `src/voice_soap.py` 85-95):
`result_text = response.text.strip()`, strip one leading ```` ```json ````
(7 chars) or else one leading ```` ``` ```` (3 chars), strip one trailing
```` ``` ```` (3 chars), `result_text.strip()`. This first step is the
leading-fence removal: `if result_text.startswith("```json"):
result_text = result_text[7:]` / `elif result_text.startswith("```"):
result_text = result_text[3:]`. -/
def stripLeadFence (t : List Char) : List Char :=
  if pyStartswith t fenceJsonTok then t.drop 7
  else if pyStartswith t fenceTok then t.drop 3
  else t

/-- `if result_text.endswith("```"): result_text = result_text[:-3]`. -/
def stripTrailFence (t : List Char) : List Char :=
  if pyEndswith t fenceTok then t.take (t.length - 3) else t

/-- The whole block: strip, remove one leading and one trailing fence
token, strip again. -/
def strip_fencesL (raw : List Char) : List Char :=
  pyStripL (stripTrailFence (stripLeadFence (pyStripL raw)))

/-- `strip_fencesL` lifted to `String` (Python `str` is a sequence of code
points, matching `List Char`). -/
def strip_fences (raw : String) : String :=
  ⟨strip_fencesL raw.data⟩


/-! ## Python values and `json.loads`

The replies, once parsed, live in Python's value universe; the code only ever
produces them through `json.loads`, so the embedding carries the JSON value
tree. Numeric values are kept as their source lexeme (`num`): no claim about
this repository depends on int/float semantics. -/

/-- A parsed JSON value (the result of `json.loads`). Objects are ordered
key/value lists — Python dicts preserve insertion order, and `objInsert`
below reproduces the duplicate-key behaviour of dict building. -/
inductive Json where
  | str (s : String)
  | num (lexeme : String)
  | jbool (b : Bool)
  | null
  | arr (elems : List Json)
  | obj (members : List (String × Json))

/-- The left brace character (0x7b), named so that no brace literal occurs. -/
def lbraceC : Char := Char.ofNat 123

/-- The right brace character (0x7d). -/
def rbraceC : Char := Char.ofNat 125

/-- JSON's inter-token whitespace (Python `json` skips exactly these four). -/
def jsonWs (c : Char) : Bool :=
  c == ' ' || c == '\t' || c == '\n' || c == '\r'

/-- Skip inter-token whitespace. -/
def skipWs : List Char → List Char
  | c :: cs => if jsonWs c then skipWs cs else c :: cs
  | [] => []

/-- ASCII digit test. -/
def isDig (c : Char) : Bool := 48 ≤ c.toNat && c.toNat ≤ 57

/-- The value of one hex digit, if `c` is one. -/
def hexVal (c : Char) : Option Nat :=
  if 48 ≤ c.toNat && c.toNat ≤ 57 then some (c.toNat - 48)
  else if 97 ≤ c.toNat && c.toNat ≤ 102 then some (c.toNat - 87)
  else if 65 ≤ c.toNat && c.toNat ≤ 70 then some (c.toNat - 55)
  else none

/-- Four hex digits to their value. -/
def hex4 (a b c d : Char) : Option Nat :=
  match hexVal a, hexVal b, hexVal c, hexVal d with
  | some va, some vb, some vc, some vd => some (((va * 16 + vb) * 16 + vc) * 16 + vd)
  | _, _, _, _ => none

/-- The short JSON escapes. -/
def shortEsc : Char → Option Char
  | '"' => some '"'
  | '\\' => some '\\'
  | '/' => some '/'
  | 'b' => some (Char.ofNat 8)
  | 'f' => some (Char.ofNat 12)
  | 'n' => some '\n'
  | 'r' => some '\r'
  | 't' => some '\t'
  | _ => none

/-- Scan a JSON string body (after the opening quote) up to the closing
quote into code units (`\uXXXX` may yield a surrogate half); strict mode
as in Python `json.loads`: a raw control character (< 0x20) is an error. -/
def parseJStrUnits : List Char → Option (List Nat × List Char)
  | [] => none
  | '"' :: cs => some ([], cs)
  | '\\' :: 'u' :: a :: b :: c :: d :: cs =>
    (match hex4 a b c d with
     | none => none
     | some n => (parseJStrUnits cs).map (fun p => (n :: p.1, p.2)))
  | '\\' :: e :: cs =>
    (match shortEsc e with
     | some ch => (parseJStrUnits cs).map (fun p => (ch.toNat :: p.1, p.2))
     | none => none)
  | c :: cs =>
    if c.toNat < 32 then none
    else (parseJStrUnits cs).map (fun p => (c.toNat :: p.1, p.2))

/-- Combine adjacent `\uXXXX` surrogate halves, as Python does. A lone
surrogate (which Python would keep, but `Char` cannot carry) decodes
through `Char.ofNat`'s fallback — unreachable from every theorem below. -/
def unitsToChars : List Nat → List Char
  | [] => []
  | [n] => [Char.ofNat n]
  | n :: m :: rest =>
    if (0xd800 ≤ n ∧ n ≤ 0xdbff) ∧ (0xdc00 ≤ m ∧ m ≤ 0xdfff) then
      Char.ofNat (0x10000 + (n - 0xd800) * 0x400 + (m - 0xdc00)) :: unitsToChars rest
    else Char.ofNat n :: unitsToChars (m :: rest)

/-- Parse a JSON string body: scan to units, then combine surrogate pairs. -/
def parseJStrBody (l : List Char) : Option (List Char × List Char) :=
  (parseJStrUnits l).map (fun p => (unitsToChars p.1, p.2))

/-- Span of leading ASCII digits. -/
def takeDigits : List Char → (List Char × List Char)
  | [] => ([], [])
  | c :: cs =>
    if isDig c then
      match takeDigits cs with
      | (ds, r) => (c :: ds, r)
    else ([], c :: cs)

/-- The optional fraction part `\.\d+` of Python json's NUMBER_RE; consumed
only when at least one digit follows the dot. -/
def numFrac (l : List Char) : (List Char × List Char) :=
  match l with
  | '.' :: cs =>
    (match takeDigits cs with
     | ([], _) => ([], l)
     | (ds, r) => ('.' :: ds, r))
  | _ => ([], l)

/-- The optional exponent part `[eE][-+]?\d+`; consumed only when complete. -/
def numExp (l : List Char) : (List Char × List Char) :=
  match l with
  | e :: cs =>
    if e = 'e' ∨ e = 'E' then
      match cs with
      | s :: cs2 =>
        if s = '+' ∨ s = '-' then
          (match takeDigits cs2 with
           | ([], _) => ([], l)
           | (ds, r) => (e :: s :: ds, r))
        else
          (match takeDigits cs with
           | ([], _) => ([], l)
           | (ds, r) => (e :: ds, r))
      | [] => ([], l)
    else ([], l)
  | [] => ([], [])

/-- The number lexeme per Python json's `NUMBER_RE`:
`-?(0|[1-9]\d*)(\.\d+)?([eE][-+]?\d+)?`. -/
def parseNumLex (l : List Char) : Option (List Char × List Char) :=
  let (sgn, l1) : (List Char × List Char) :=
    match l with
    | '-' :: cs => (['-'], cs)
    | _ => ([], l)
  match l1 with
  | c :: cs =>
    if c = '0' then
      let (fr, l2) := numFrac cs
      let (ex, l3) := numExp l2
      some (sgn ++ ['0'] ++ fr ++ ex, l3)
    else if isDig c then
      let (ds, l1b) := takeDigits cs
      let (fr, l2) := numFrac l1b
      let (ex, l3) := numExp l2
      some (sgn ++ (c :: ds) ++ fr ++ ex, l3)
    else none
  | [] => none

/-- Insert into an object as Python dict building does: a repeated key keeps
its first position and takes the latest value. -/
def objInsert (ms : List (String × Json)) (k : String) (v : Json) : List (String × Json) :=
  match ms with
  | [] => [(k, v)]
  | (k0, v0) :: rest => if k0 = k then (k0, v) :: rest else (k0, v0) :: objInsert rest k v

/-- Parsing mode: a single value, the items of a (non-empty) array, or the
members of a (non-empty) object — one function so the recursion is
structural on the fuel and reduces in the kernel. -/
inductive PMode where
  | value
  | arrItems (acc : List Json)
  | objItems (acc : List (String × Json))

/-- Recursive descent over the character list, fuelled. Mirrors Python
`json.loads`' grammar: the four JSON literals plus `NaN`, `Infinity` and
`-Infinity`, strings, numbers, arrays and objects; no trailing commas. -/
def parseF : Nat → PMode → List Char → Option (Json × List Char)
  | 0, _, _ => none
  | n + 1, .value, s =>
    match skipWs s with
    | [] => none
    | c :: cs =>
      if c = '"' then (parseJStrBody cs).map (fun p => (.str ⟨p.1⟩, p.2))
      else if c = lbraceC then
        match skipWs cs with
        | c2 :: cs2 => if c2 = rbraceC then some (.obj [], cs2) else parseF n (.objItems []) cs
        | [] => none
      else if c = '[' then
        match skipWs cs with
        | c2 :: cs2 => if c2 = ']' then some (.arr [], cs2) else parseF n (.arrItems []) cs
        | [] => none
      else if pyStartswith (c :: cs) "true".data then some (.jbool true, (c :: cs).drop 4)
      else if pyStartswith (c :: cs) "false".data then some (.jbool false, (c :: cs).drop 5)
      else if pyStartswith (c :: cs) "null".data then some (.null, (c :: cs).drop 4)
      else if pyStartswith (c :: cs) "NaN".data then some (.num "NaN", (c :: cs).drop 3)
      else if pyStartswith (c :: cs) "Infinity".data then some (.num "Infinity", (c :: cs).drop 8)
      else if pyStartswith (c :: cs) "-Infinity".data then some (.num "-Infinity", (c :: cs).drop 9)
      else (parseNumLex (c :: cs)).map (fun p => (.num ⟨p.1⟩, p.2))
  | n + 1, .arrItems acc, s =>
    match parseF n .value s with
    | none => none
    | some (v, r) =>
      match skipWs r with
      | c :: cs =>
        if c = ',' then parseF n (.arrItems (acc ++ [v])) cs
        else if c = ']' then some (.arr (acc ++ [v]), cs)
        else none
      | [] => none
  | n + 1, .objItems acc, s =>
    match skipWs s with
    | c :: cs =>
      if c = '"' then
        match parseJStrBody cs with
        | none => none
        | some (k, r1) =>
          match skipWs r1 with
          | c2 :: cs2 =>
            if c2 = ':' then
              match parseF n .value cs2 with
              | none => none
              | some (v, r2) =>
                let acc2 := objInsert acc ⟨k⟩ v
                match skipWs r2 with
                | c3 :: cs3 =>
                  if c3 = ',' then parseF n (.objItems acc2) cs3
                  else if c3 = rbraceC then some (.obj acc2, cs3)
                  else none
                | [] => none
            else none
          | [] => none
      else none
    | [] => none

/-- `json.loads`: parse one document, skip trailing whitespace, and reject
trailing data. The fuel `2·|s| + 2` dominates the recursion depth (every
two nested calls consume at least one character). -/
def jsonParse (s : String) : Option Json :=
  match parseF (2 * s.data.length + 2) .value s.data with
  | none => none
  | some (j, rest) => if skipWs rest = [] then some j else none


/-! ## The prompt templates -/

/-- Join lines with a newline, right-nested (so that forcing the first
characters of the result is shallow). `joinWithNl [a, b, c] = a ++ "\n" ++
(b ++ "\n" ++ c)`, the inverse of splitting a text into lines. -/
def joinWithNl : List String → String
  | [] => ""
  | [l] => l
  | l :: l2 :: ls => l ++ "\n" ++ joinWithNl (l2 :: ls)

/-- The prompt template `EXTRACTION_PROMPT`, transcribed verbatim from
`src/app.py` lines 50-240 (literal braces written `\x7b`/`\x7d`; the
Python triple-quoted literal ends with a newline, reproduced by the final
empty line). -/
def EXTRACTION_PROMPT_LINES : List String := [
  "あなたは在宅医療の医師です。",
  "提供された「診療情報提供書（紹介状）」の内容を読み取り、訪問診療開始時の初診カルテに記載する形式でJSONデータを作成してください。",
  "",
  "複数の画像やページがある場合は、すべての情報を統合して1つの初診カルテとして出力してください。",
  "",
  "## 制約事項",
  "- 出力はJSON形式のみとしてください。Markdownのコードブロックで囲わず、純粋なJSONのみを返してください。",
  "- 実際の医療現場で使用される初診カルテの形式に準拠してください。",
  "- 値が存在しない場合は空文字列 \"\" としてください。",
  "- 病名には必ず \"#\" を先頭に付けてください。",
  "",
  "## 出力すべきJSONテンプレート",
  "\x7b",
  "  \"patient_info\": \x7b",
  "    \"name\": \"\",",
  "    \"birth_date\": \"\",",
  "    \"age\": \"\",",
  "    \"gender\": \"\"",
  "  \x7d,",
  "  \"vitals\": \x7b",
  "    \"height\": \"\",",
  "    \"weight\": \"\",",
  "    \"blood_pressure\": \"\",",
  "    \"pulse\": \"\",",
  "    \"temperature\": \"\",",
  "    \"spo2\": \"\"",
  "  \x7d,",
  "  \"soap\": \x7b",
  "    \"subjective\": \"\",",
  "    \"objective\": \x7b",
  "      \"consciousness\": \"\",",
  "      \"general_condition\": \"\",",
  "      \"physical_exam\": \"\",",
  "      \"test_results\": \"\"",
  "    \x7d,",
  "    \"assessment\": \"\",",
  "    \"plan\": \"\"",
  "  \x7d,",
  "  \"diagnosis\": [],",
  "  \"clinical_course\": \x7b",
  "    \"onset_and_progress\": \"\",",
  "    \"reason_for_referral\": \"\",",
  "    \"recent_changes\": \"\"",
  "  \x7d,",
  "  \"past_medical_history\": [],",
  "  \"allergies\": \x7b",
  "    \"drug_allergies\": \"\",",
  "    \"food_allergies\": \"\",",
  "    \"asthma\": \"\"",
  "  \x7d,",
  "  \"adverse_drug_reactions\": \"\",",
  "  \"lifestyle\": \x7b",
  "    \"smoking\": \"\",",
  "    \"alcohol\": \"\",",
  "    \"occupation\": \"\"",
  "  \x7d,",
  "  \"infectious_disease\": \"\",",
  "  \"adl\": \x7b",
  "    \"walking\": \"\",",
  "    \"feeding\": \"\",",
  "    \"excretion\": \"\",",
  "    \"bathing\": \"\",",
  "    \"dressing\": \"\",",
  "    \"daily_activities\": \"\",",
  "    \"iadl\": \"\"",
  "  \x7d,",
  "  \"independence_level\": \"\",",
  "  \"cognitive_status\": \x7b",
  "    \"dementia_presence\": \"\",",
  "    \"dementia_type\": \"\",",
  "    \"severity\": \"\",",
  "    \"mmse_score\": \"\",",
  "    \"behavioral_symptoms\": \"\"",
  "  \x7d,",
  "  \"care_info\": \x7b",
  "    \"care_level\": \"\",",
  "    \"disability_certification\": \"\",",
  "    \"family_structure\": \"\",",
  "    \"key_person\": \x7b",
  "      \"name\": \"\",",
  "      \"relation\": \"\",",
  "      \"contact\": \"\"",
  "    \x7d,",
  "    \"preferred_location\": \"\",",
  "    \"care_services\": []",
  "  \x7d,",
  "  \"advance_care_planning\": \x7b",
  "    \"emergency_response\": \"\",",
  "    \"life_sustaining_treatment\": \"\",",
  "    \"tube_feeding\": \"\",",
  "    \"acute_illness_treatment\": \"\",",
  "    \"hospitalization_preference\": \"\",",
  "    \"dnr_status\": \"\",",
  "    \"organ_donation\": \"\",",
  "    \"brain_bank\": \"\",",
  "    \"other_wishes\": \"\"",
  "  \x7d,",
  "  \"current_medications\": [],",
  "  \"prn_medications\": [],",
  "  \"treatment_plan\": \"\"",
  "\x7d",
  "",
  "## 抽出ルール",
  "",
  "### 患者基本情報 (patient_info)",
  "- 氏名、生年月日、年齢、性別を抽出",
  "",
  "### バイタルサイン (vitals)",
  "- 身長、体重、血圧、脈拍、体温、SpO2",
  "- 記載がない場合は空文字列",
  "",
  "### SOAP形式での記載",
  "- S (Subjective): 患者・家族の訴え、主訴、紹介理由",
  "- O (Objective): ",
  "  - consciousness: 意識レベル（清明、傾眠など）",
  "  - general_condition: 全身状態",
  "  - physical_exam: 身体所見（心音、呼吸音、腹部所見など）",
  "  - test_results: 検査結果（心電図、画像所見、血液検査など）",
  "- A (Assessment): 診断名、病状評価",
  "- P (Plan): 治療計画、紹介先、今後の方針",
  "",
  "### 病名 (diagnosis)",
  "- 必ず \"#\" を付けて記載（例: \"#アルツハイマー型認知症\"）",
  "- 主病名から順に配列で記載",
  "- 紹介状に記載されている全ての病名を抽出",
  "",
  "### 経過概略 (clinical_course)",
  "- onset_and_progress: いつから症状が始まり、どう進行したか",
  "- reason_for_referral: 今回紹介に至った経緯・理由",
  "- recent_changes: 最近の変化や特記事項",
  "",
  "### 既往歴 (past_medical_history)",
  "- 過去の病気、手術歴などを配列で記載",
  "",
  "### アレルギー (allergies)",
  "- 薬剤アレルギー、食物アレルギー、喘息の有無",
  "- 「なし」と「不明」を区別する",
  "",
  "### 生活歴 (lifestyle)",
  "- 喫煙歴（本数×年数）",
  "- 飲酒歴（種類と量）",
  "- 職業・職歴",
  "",
  "### ADL評価 (adl)",
  "- walking: 独歩/杖歩行/歩行器/車椅子/寝たきり",
  "- feeding: 自立/一部介助/全介助",
  "- excretion: 自立/一部介助/全介助/おむつ/カテーテル",
  "- bathing: 自立/一部介助/全介助",
  "- dressing: 自立/一部介助/全介助",
  "- daily_activities: 日常動作の自立度",
  "- iadl: 手段的日常生活動作（IADL）の状況",
  "",
  "### 自立度 (independence_level)",
  "- 寝たきり度（J1、A1、B1など）の記載があれば抽出",
  "",
  "### 認知症評価 (cognitive_status)",
  "- dementia_presence: 認知症の有無",
  "- dementia_type: アルツハイマー型、脳血管性、レビー小体型など",
  "- severity: 軽度/中等症/重度/Ⅰ/Ⅱa/Ⅱb/Ⅲa/Ⅲb/Ⅳ/M",
  "- mmse_score: MMSE得点（例: \"16/30\"または\"16点（30点）\"）",
  "- behavioral_symptoms: BPSD（周辺症状）の内容",
  "",
  "### 介護情報 (care_info)",
  "- care_level: 要支援1〜2、要介護1〜5",
  "- disability_certification: 障害者手帳の等級",
  "- family_structure: 家族構成（独居、夫婦、子と同居など）",
  "- key_person: キーパーソンの情報",
  "- preferred_location: 本人が過ごしたい場所（自宅、施設など）",
  "- care_services: 利用中の介護サービス（訪問介護、デイサービスなど）",
  "",
  "### ACP（アドバンス・ケア・プランニング）",
  "- emergency_response: 急変時の対応方針",
  "- life_sustaining_treatment: 延命治療の意向",
  "- tube_feeding: 胃瘻・経管栄養の希望",
  "- acute_illness_treatment: 治療可能な急性疾患への対応",
  "- hospitalization_preference: 入院の希望",
  "- dnr_status: DNR（Do Not Resuscitate）の有無",
  "- organ_donation: 臓器提供の意向",
  "- brain_bank: ブレインバンク登録の有無",
  "- other_wishes: その他の希望",
  "",
  "### 服薬情報",
  "- current_medications: 定期内服薬（薬剤名、用量、用法）",
  "- prn_medications: 頓服薬・屯用薬（使用条件も含めて）",
  "",
  "### 治療計画 (treatment_plan)",
  "- 今後の治療方針、観察ポイント、検査予定など",
  "",
  "必ず上記の形式に従って、紹介状から得られる情報を漏れなく正確に抽出してください。",
  "特にSOAP形式、病名の \"#\" 付与、MMSE得点、ADL詳細、ACPは重要です。",
  ""]

/-- The voice variant's `SOAP_PROMPT_TEMPLATE`, transcribed verbatim from
`src/voice_soap.py` lines 36-60. Its JSON example contains unescaped
literal braces (written `\x7b`/`\x7d` here), and the `\x7btranscribed_text\x7d`
placeholder only occurs after them. -/
def SOAP_PROMPT_TEMPLATE_LINES : List String := [
  "あなたは在宅医療の医師です。",
  "以下の診療会話の文字起こしテキストを読み、SOAP形式で診療記録を作成してください。",
  "",
  "【SOAP形式】",
  "S (Subjective): 患者・家族の主訴、訴え",
  "O (Objective): 身体所見、バイタルサイン、検査結果",
  "A (Assessment): 診断、評価",
  "P (Plan): 治療計画、処方、今後の方針",
  "",
  "会話には医師・患者・家族の発言が混在している可能性があります。",
  "診療記録として必要な情報を抽出し、簡潔に整理してください。",
  "",
  "## 出力形式",
  "以下のJSON形式で出力してください。Markdownのコードブロックで囲わず、純粋なJSONのみを返してください。",
  "",
  "\x7b",
  "  \"subjective\": \"患者・家族の主訴、訴えをここに記載\",",
  "  \"objective\": \"身体所見、バイタルサイン、検査結果をここに記載\",",
  "  \"assessment\": \"診断、評価をここに記載\",",
  "  \"plan\": \"治療計画、処方、今後の方針をここに記載\"",
  "\x7d",
  "",
  "[文字起こしテキスト]",
  "\x7btranscribed_text\x7d",
  ""]

/-- `EXTRACTION_PROMPT` itself: its lines joined by newlines. -/
def EXTRACTION_PROMPT : String := joinWithNl EXTRACTION_PROMPT_LINES

/-- `SOAP_PROMPT_TEMPLATE` itself: its lines joined by newlines. -/
def SOAP_PROMPT_TEMPLATE : String := joinWithNl SOAP_PROMPT_TEMPLATE_LINES

/-- `pat` occurs as a contiguous substring of `l`. -/
def containsSub (l pat : List Char) : Bool :=
  match l with
  | [] => pat.isEmpty
  | _ :: tl => pyStartswith l pat || containsSub tl pat

/-- Substring containment on `String`. -/
def strContains (s pat : String) : Bool := containsSub s.data pat.data

/-! ## The two extraction entry points of `src/app.py`

The external model client (`client.models.generate_content`) is abstracted
as an oracle function from the request actually sent to the reply's
`response.text`; everything else follows the source line by line. -/

/-- Outcome of a reply-processing path: `ok` models `return extracted_data`;
`jsonError raw` models the `except json.JSONDecodeError` branch, which
displays the error along with the untouched original `response.text` and
returns `None`. -/
inductive ExtractOutcome where
  | ok (data : Json)
  | jsonError (raw : String)

/-- The reply-handling tail duplicated verbatim in
`extract_info_from_multiple_files` (`src/app.py` 310-328) and
`extract_info_from_text` (`src/app.py` 359-377): trim, remove fences,
`json.loads`; on `json.JSONDecodeError` the code shows the error together
with the original `response.text` and returns `None`. -/
def normalizeReply (response_text : String) : ExtractOutcome :=
  match jsonParse (strip_fences response_text) with
  | some extracted_data => .ok extracted_data
  | none => .jsonError response_text

/-- The prompt built by `extract_info_from_text` (`src/app.py` 336):
`EXTRACTION_PROMPT + f"\n\n入力テキスト:\n\x7btext\x7d"`. -/
def textPrompt (text : String) : String :=
  EXTRACTION_PROMPT ++ "\n\n入力テキスト:\n" ++ text

/-- `extract_info_from_text` (`src/app.py` 333-380). -/
def extract_info_from_text (modelReply : String → String) (text : String) :
    ExtractOutcome :=
  normalizeReply (modelReply (textPrompt text))

/-- An abstract decoded image (a PIL image / its PNG bytes; the pipeline
never inspects image contents). -/
structure Img where
  id : Nat

/-- An uploaded file as the multi-file path sees it, with the results of the
external decoders baked in: `type` is the MIME type reported by Streamlit;
for a PDF, `pdfImages` is whatever `process_pdf_to_images` returned (`[]`
when pdf2image fails, since that helper catches its exceptions —
`src/app.py` 242-251); for any other file `openedImage` is `Image.open`'s
result, `none` when it raises. -/
structure UploadedFile where
  type : String
  pdfImages : List Img
  openedImage : Option Img

/-- The image-collection loop of `extract_info_from_multiple_files`
(`src/app.py` 257-266): PDFs contribute their page images in order, other
files go through `Image.open`; an `Image.open` exception aborts the whole
call into the generic `except` branch (`none` here). -/
def collectImages : List UploadedFile → Option (List Img)
  | [] => some []
  | f :: fs =>
    if f.type = "application/pdf" then
      (collectImages fs).map (fun rest => f.pdfImages ++ rest)
    else
      match f.openedImage with
      | none => none
      | some image => (collectImages fs).map (fun rest => image :: rest)

/-- Outcome of `extract_info_from_multiple_files`: besides the two reply
outcomes, `emptyImages` models the `if not all_images` error display and
`return None` (`src/app.py` 268-270), and `fileError` the generic
`except Exception` branch entered when a non-PDF file cannot be opened.
Every non-`ok` outcome displays an error and returns `None`. -/
inductive MultiOutcome where
  | ok (data : Json)
  | jsonError (raw : String)
  | emptyImages
  | fileError

/-- The request content built at `src/app.py` 289-295: a single user turn
whose parts are the fixed `EXTRACTION_PROMPT` text part followed by one
inline PNG part per collected image. -/
structure GenContent where
  role : String
  textPart : String
  imageParts : List Img

/-- `contents = [types.Content(role="user", parts=[Part.from_text(text=EXTRACTION_PROMPT)] + image_parts)]`. -/
def buildMultiFileContents (all_images : List Img) : List GenContent :=
  [{ role := "user", textPart := EXTRACTION_PROMPT, imageParts := all_images }]

/-- `extract_info_from_multiple_files` (`src/app.py` 253-331). -/
def extract_info_from_multiple_files (modelReply : List GenContent → String)
    (files : List UploadedFile) : MultiOutcome :=
  match collectImages files with
  | none => .fileError
  | some all_images =>
    if all_images.isEmpty then .emptyImages
    else
      match normalizeReply (modelReply (buildMultiFileContents all_images)) with
      | .ok extracted_data => .ok extracted_data
      | .jsonError raw => .jsonError raw

/-- The top-level field names of the JSON template embedded in
`EXTRACTION_PROMPT` (`src/app.py` 62-150) — the schema the prompt declares,
in template order. -/
def schemaTopLevelFields : List String :=
  ["patient_info", "vitals", "soap", "diagnosis", "clinical_course",
   "past_medical_history", "allergies", "adverse_drug_reactions", "lifestyle",
   "infectious_disease", "adl", "independence_level", "cognitive_status",
   "care_info", "advance_care_planning", "current_medications",
   "prn_medications", "treatment_plan"]

/-- Association-list lookup (Python `key in data` / `data[key]`). -/
def lookupKV : List (String × Json) → String → Option Json
  | [], _ => none
  | (k0, v) :: rest, k => if k0 = k then some v else lookupKV rest k

/-- Key lookup in a parsed value: `none` when the key is absent (or the
value is not an object). -/
def jlookup (j : Json) (k : String) : Option Json :=
  match j with
  | .obj ms => lookupKV ms k
  | _ => none

/-! ## The voice variant: `str.format` and `create_soap_from_text`

`create_soap_from_text` substitutes the transcript into
`SOAP_PROMPT_TEMPLATE` with `str.format`, so the embedding needs the part of
CPython's format-string scanner that decides success or an exception: brace
doubling, replacement-field delimiting, field-name resolution against the
keyword arguments. Spec/conversion handling beyond what any resolvable
field of this repository could reach is conservatively mapped to an error
and is unreachable in every theorem below. -/

/-- One format spec, up to the brace closing the replacement field, tracking
nested braces as CPython does. -/
def takeSpec : Nat → List Char → Option (List Char × List Char)
  | _, [] => none
  | depth, c :: cs =>
    if c = rbraceC then
      if depth = 0 then some ([], cs)
      else (takeSpec (depth - 1) cs).map (fun p => (c :: p.1, p.2))
    else if c = lbraceC then (takeSpec (depth + 1) cs).map (fun p => (c :: p.1, p.2))
    else (takeSpec depth cs).map (fun p => (c :: p.1, p.2))

/-- Association-list lookup among keyword arguments. -/
def lookupStr : List (String × String) → String → Option String
  | [], _ => none
  | (k, v) :: rest, key => if k = key then some v else lookupStr rest key

/-- Resolve a replacement-field name against keyword arguments as
`str.format` does: an empty first component would use auto-numbering and a
digit-only one a positional index (no positional arguments are ever
supplied here, so both are an `IndexError`); otherwise the first component
is looked up among the keywords (`KeyError` when absent).
Attribute/index trailers (`.attr`, `[i]`) never appear in this
repository's templates and map to an error. -/
def resolveField (name : List Char) (kwargs : List (String × String)) : Option String :=
  let first := name.takeWhile (fun c => ¬(c = '.' ∨ c = '['))
  let trailer := name.drop first.length
  if first.isEmpty then none
  else if first.all isDig then none
  else if trailer.isEmpty then lookupStr kwargs ⟨first⟩ else none

/-- Decimal value of a digit string. -/
def digitsToNat (l : List Char) : Nat :=
  l.foldl (fun a c => a * 10 + (c.toNat - 48)) 0

/-- Apply a format spec to a string value: an empty spec keeps the value; a
pure-width spec pads with spaces on the right (`str` aligns left). Any
other spec is outside the modelled fragment and maps to an error — no code
path of this repository reaches a non-empty spec. -/
def applySpec (v : String) (spec : List Char) : Option String :=
  if spec.isEmpty then some v
  else if spec.all isDig then
    some ⟨v.data ++ List.replicate (digitsToNat spec - v.data.length) ' '⟩
  else none

/-- Apply a conversion character: `!s` on a string is the identity; the
other conversions (`!r`, `!a`) are outside the modelled fragment. -/
def applyConv (v : String) (conv : Option Char) : Option String :=
  match conv with
  | none => some v
  | some c => if c = 's' then some v else none

/-- Substitute one replacement field: resolve, convert, format. -/
def substField (kwargs : List (String × String)) (name spec : List Char)
    (conv : Option Char) : Option String :=
  match resolveField name kwargs with
  | none => none
  | some v =>
    match applyConv v conv with
    | none => none
    | some v2 => applySpec v2 spec

/-- CPython's format-string markup scan (fuelled; each step consumes at
least one character): `\x7b\x7b` and `\x7d\x7d` are literal braces, a lone
`\x7d` is `ValueError`, `\x7b` opens a replacement field whose name runs to
`!`, `:` or the closing brace, and an unterminated field is `ValueError`;
`none` models any raised exception. -/
def formatScan (kwargs : List (String × String)) : Nat → List Char → Option (List Char)
  | 0, _ => none
  | _ + 1, [] => some []
  | n + 1, c :: cs =>
    if c = rbraceC then
      match cs with
      | c2 :: cs2 =>
        if c2 = rbraceC then (formatScan kwargs n cs2).map (fun r => rbraceC :: r)
        else none
      | [] => none
    else if c = lbraceC then
      match cs with
      | [] => none
      | c2 :: cs2 =>
        if c2 = lbraceC then (formatScan kwargs n cs2).map (fun r => lbraceC :: r)
        else
          let name := cs.takeWhile (fun x => ¬(x = '!' ∨ x = ':' ∨ x = rbraceC ∨ x = lbraceC))
          let rest := cs.drop name.length
          match rest with
          | [] => none
          | d :: ds =>
            if d = rbraceC then
              match substField kwargs name [] none with
              | none => none
              | some v => (formatScan kwargs n ds).map (fun r => v.data ++ r)
            else if d = ':' then
              match takeSpec 0 ds with
              | none => none
              | some (spec, rest2) =>
                match substField kwargs name spec none with
                | none => none
                | some v => (formatScan kwargs n rest2).map (fun r => v.data ++ r)
            else if d = '!' then
              match ds with
              | e :: d2 :: ds2 =>
                if d2 = rbraceC then
                  match substField kwargs name [] (some e) with
                  | none => none
                  | some v => (formatScan kwargs n ds2).map (fun r => v.data ++ r)
                else if d2 = ':' then
                  match takeSpec 0 ds2 with
                  | none => none
                  | some (spec, rest2) =>
                    match substField kwargs name spec (some e) with
                    | none => none
                    | some v => (formatScan kwargs n rest2).map (fun r => v.data ++ r)
                else none
              | _ => none
            else none
    else (formatScan kwargs n cs).map (fun r => c :: r)

/-- Python `template.format(**kwargs)` (`none` = an exception escapes). -/
def pyFormat (tmpl : String) (kwargs : List (String × String)) : Option String :=
  (formatScan kwargs (tmpl.data.length + 1) tmpl.data).map (fun l => ⟨l⟩)


/-- `create_soap_from_text` (`src/voice_soap.py` 78-105): substitute the
transcript into the template with `str.format`, send the prompt, then the
same trim/fence/`json.loads` tail as the other variants; both `except`
branches display an error and return `None`. -/
def create_soap_from_text (modelReply : String → String) (transcribed_text : String) :
    Option Json :=
  match pyFormat SOAP_PROMPT_TEMPLATE [("transcribed_text", transcribed_text)] with
  | none => none
  | some prompt =>
    match jsonParse (strip_fences (modelReply prompt)) with
    | some soap_data => some soap_data
    | none => none

/-! ## Spec-modelled JSON serialization, for the round-trip property

The repository never serializes a record — the spec's round-trip property
feeds a hand-built record through `json.dumps` before handing it to the
normalizer, so the serializer is modelled from the spec. -/

/-- Lowercase hex digit. -/
def hexDigit (n : Nat) : Char :=
  if n < 10 then Char.ofNat (48 + n) else Char.ofNat (87 + n)

/-- Modelled from the spec: "a hand-built ClinicalRecord serialized to
JSON". The repository contains no serializer, so this models
`json.dumps(record, ensure_ascii=False)`'s string escaping: `"`, `\` and
the five short control escapes, any other control character as `\u00XX`,
every other character literal. -/
def escChar (c : Char) : List Char :=
  if c = '"' then ['\\', '"']
  else if c = '\\' then ['\\', '\\']
  else if c = Char.ofNat 10 then ['\\', 'n']
  else if c = Char.ofNat 13 then ['\\', 'r']
  else if c = Char.ofNat 9 then ['\\', 't']
  else if c = Char.ofNat 8 then ['\\', 'b']
  else if c = Char.ofNat 12 then ['\\', 'f']
  else if c.toNat < 32 then
    ['\\', 'u', '0', '0', hexDigit (c.toNat / 16), hexDigit (c.toNat % 16)]
  else [c]

/-- Escape a whole string body. -/
def escList : List Char → List Char
  | [] => []
  | c :: cs => escChar c ++ escList cs

mutual
/-- Modelled from the spec: `json.dumps` with its default separators
`", "` and `": "` (no indent), on the value fragment the round-trip
property quantifies over. -/
def jserL : Json → List Char
  | .str s => '"' :: (escList s.data ++ ['"'])
  | .num lex => lex.data
  | .jbool true => "true".data
  | .jbool false => "false".data
  | .null => "null".data
  | .arr [] => "[]".data
  | .arr (x :: xs) => '[' :: (jserItemsL x xs ++ [']'])
  | .obj [] => [lbraceC, rbraceC]
  | .obj (m :: ms) => lbraceC :: (jserMembersL m ms ++ [rbraceC])
termination_by j => sizeOf j
decreasing_by all_goals simp

/-- The comma-separated items of a non-empty array. -/
def jserItemsL : Json → List Json → List Char
  | x, [] => jserL x
  | x, y :: ys => jserL x ++ ',' :: ' ' :: jserItemsL y ys
termination_by x xs => 1 + sizeOf x + sizeOf xs
decreasing_by all_goals (simp <;> omega)

/-- The comma-separated members of a non-empty object. -/
def jserMembersL : (String × Json) → List (String × Json) → List Char
  | (k, v), [] => '"' :: (escList k.data ++ '"' :: ':' :: ' ' :: jserL v)
  | (k, v), m :: ms =>
    '"' :: (escList k.data ++ '"' :: ':' :: ' ' :: (jserL v ++ ',' :: ' ' :: jserMembersL m ms))
termination_by m ms => 1 + sizeOf m + sizeOf ms
decreasing_by all_goals (simp <;> omega)
end

/-- Serialization to a `String`. -/
def jserialize (j : Json) : String := ⟨jserL j⟩

/-- The spec's `ClinicalRecord` value fragment: strings, lists and nested
objects; a hand-built record is a Python dict, so object keys are
pairwise distinct. -/
inductive RecLike : Json → Prop
  | str (s : String) : RecLike (.str s)
  | arr (xs : List Json) (h : ∀ x ∈ xs, RecLike x) : RecLike (.arr xs)
  | obj (ms : List (String × Json)) (hnd : (ms.map Prod.fst).Nodup)
      (h : ∀ m ∈ ms, RecLike m.2) : RecLike (.obj ms)

/-- The element round-trip property threaded through the list lemmas. -/
def ValueRT (y : Json) : Prop :=
  ∀ (rest : List Char) (fuel : Nat), (jserL y).length + 1 ≤ fuel →
    parseF fuel .value (jserL y ++ rest) = some (y, rest)

theorem data_append (s t : String) : (s ++ t).data = s.data ++ t.data := by
  cases s; cases t; rfl

/-- A substring of the right part is a substring of the whole. -/
theorem containsSub_append_right (a : List Char) {b pat : List Char}
    (h : containsSub b pat = true) : containsSub (a ++ b) pat = true := by
  induction a with
  | nil => simpa using h
  | cons c tl ih =>
    have hstep : containsSub (c :: (tl ++ b)) pat
        = (pyStartswith (c :: (tl ++ b)) pat || containsSub (tl ++ b) pat) := rfl
    rw [List.cons_append, hstep, ih, Bool.or_true]

/-- A list none of whose characters equals the pattern's head cannot contain
the pattern. -/
theorem containsSub_eq_false_of_head_absent {p1 : Char} {ps l : List Char}
    (h : ∀ c ∈ l, (p1 == c) = false) : containsSub l (p1 :: ps) = false := by
  induction l with
  | nil => rfl
  | cons c tl ih =>
    simp only [containsSub, pyStartswith, Bool.or_eq_false_iff]
    refine ⟨?_, ih fun x hx => h x (List.mem_cons_of_mem _ hx)⟩
    simp [h c (List.mem_cons_self _ _)]

/-- Character-absence transfers through `joinWithNl`. -/
theorem joinWithNl_char_absent {p1 : Char} (hnl : (p1 == Char.ofNat 10) = false) :
    ∀ ls : List String, (∀ l ∈ ls, ∀ c ∈ l.data, (p1 == c) = false) →
      ∀ c ∈ (joinWithNl ls).data, (p1 == c) = false
  | [], _ => by intro c hc; simp [joinWithNl] at hc
  | [l], h => by
    intro c hc
    rw [show joinWithNl [l] = l from rfl] at hc
    exact h l (List.mem_singleton.mpr rfl) c hc
  | l :: l2 :: ls, h => by
    intro c hc
    have hstep : joinWithNl (l :: l2 :: ls) = l ++ "\n" ++ joinWithNl (l2 :: ls) := rfl
    rw [hstep, data_append, data_append] at hc
    rcases List.mem_append.mp hc with h1 | h2
    · rcases List.mem_append.mp h1 with ha | hb
      · exact h l (by simp) c ha
      · have : c = Char.ofNat 10 := by
          simpa using hb
        rw [this]; exact hnl
    · exact joinWithNl_char_absent hnl (l2 :: ls)
        (fun x hx => h x (List.mem_cons_of_mem _ hx)) c h2

/-- The merge directive (`src/app.py` line 53) occurs in the prompt (it is
line 4 of the template, so laziness finds it after scanning two short
lines). -/
theorem prompt_has_merge_directive :
    strContains EXTRACTION_PROMPT "すべての情報を統合して1つの初診カルテとして出力してください" = true := by
  rfl

/-- The word 完全 ("complete") does not occur anywhere in the prompt: no
"prefer the most complete value" directive is ever sent to the model (the
phrase 最も完全な情報が採用されます occurs only in the Streamlit help
text, `src/app.py` line 1096, which is not part of any request). -/
theorem prompt_no_kanzen : strContains EXTRACTION_PROMPT "完全" = false := by
  have habs : ∀ l ∈ EXTRACTION_PROMPT_LINES, ∀ c ∈ l.data,
      (("完全".data.head!) == c) = false := by decide
  have h10 : (("完全".data.head!) == Char.ofNat 10) = false := by decide
  have := joinWithNl_char_absent h10 EXTRACTION_PROMPT_LINES habs
  exact containsSub_eq_false_of_head_absent this

/-! ## Properties of trimming and fence-stripping -/

theorem pyStripL_eq (l : List Char) :
    pyStripL l = List.rdropWhile pyIsSpace (List.dropWhile pyIsSpace l) := rfl

theorem dropWhile_head_not {p : Char → Bool} :
    ∀ {l : List Char} {c : Char} {r : List Char},
      List.dropWhile p l = c :: r → p c = false := by
  intro l
  induction l with
  | nil => intro c r h; simp at h
  | cons a tl ih =>
    intro c r h
    rw [List.dropWhile_cons] at h
    split at h
    · exact ih h
    · next ha =>
      injection h with h1 _
      subst h1
      simpa using ha

theorem dropWhile_pyStripL (l : List Char) :
    List.dropWhile pyIsSpace (pyStripL l) = pyStripL l := by
  cases hr : pyStripL l with
  | nil => rfl
  | cons c r =>
    obtain ⟨t, ht⟩ := ( List.rdropWhile_prefix pyIsSpace (List.dropWhile pyIsSpace l))
    rw [pyStripL_eq] at hr
    rw [hr] at ht
    have hdw : List.dropWhile pyIsSpace l = c :: (r ++ t) := by
      rw [← ht]
      simp
    have hc : pyIsSpace c = false := dropWhile_head_not hdw
    rw [List.dropWhile_cons, hc]
    simp

theorem pyStripL_idem (l : List Char) : pyStripL (pyStripL l) = pyStripL l := by
  rw [pyStripL_eq (pyStripL l), dropWhile_pyStripL, pyStripL_eq,
    List.rdropWhile_idempotent]

theorem pyStartswith_iff : ∀ (pre l : List Char),
    pyStartswith l pre = true ↔ ∃ r, l = pre ++ r
  | [], l => by simp [pyStartswith]
  | p :: ps, [] => by simp [pyStartswith]
  | p :: ps, c :: cs => by
    simp only [pyStartswith, Bool.and_eq_true, beq_iff_eq]
    constructor
    · rintro ⟨rfl, h⟩
      obtain ⟨r, rfl⟩ := (pyStartswith_iff ps cs).mp h
      exact ⟨r, rfl⟩
    · rintro ⟨r, hr⟩
      injection hr with h1 h2
      subst h1
      exact ⟨rfl, (pyStartswith_iff ps cs).mpr ⟨r, h2⟩⟩

theorem pyEndswith_iff (suf l : List Char) :
    pyEndswith l suf = true ↔ ∃ r, l = r ++ suf := by
  rw [pyEndswith, pyStartswith_iff]
  constructor
  · rintro ⟨r, hr⟩
    refine ⟨r.reverse, ?_⟩
    have h2 := congrArg List.reverse hr
    simpa using h2
  · rintro ⟨r, rfl⟩
    exact ⟨r.reverse, by simp⟩

theorem fenceJsonTok_eq : fenceJsonTok = fenceTok ++ "json".data := by decide

/-- If the stripped text does not start with a fence token and does not end
with one, the whole fence-stripping block is just `str.strip()`. -/
theorem strip_fencesL_no_fences {x : List Char}
    (h1 : pyStartswith (pyStripL x) fenceTok = false)
    (h2 : pyEndswith (pyStripL x) fenceTok = false) :
    strip_fencesL x = pyStripL x := by
  have hjson : pyStartswith (pyStripL x) fenceJsonTok = false := by
    by_contra hc
    rw [Bool.not_eq_false, pyStartswith_iff] at hc
    obtain ⟨r, hr⟩ := hc
    have h3 : pyStartswith (pyStripL x) fenceTok = true := by
      rw [pyStartswith_iff]
      refine ⟨"json".data ++ r, ?_⟩
      rw [hr, fenceJsonTok_eq, List.append_assoc]
    rw [h3] at h1
    exact absurd h1 (by simp)
  have hl : stripLeadFence (pyStripL x) = pyStripL x := by
    rw [stripLeadFence, hjson, h1]
    simp
  have ht : stripTrailFence (pyStripL x) = pyStripL x := by
    rw [stripTrailFence, h2]
    simp
  rw [strip_fencesL, hl, ht, pyStripL_idem]

/-- Every run of `strip_fences` ends in a `str.strip()`, so its result is
already stripped. -/
theorem pyStripL_strip_fencesL (x : List Char) :
    pyStripL (strip_fencesL x) = strip_fencesL x := by
  rw [strip_fencesL, pyStripL_idem]

theorem subseg_trans {n m l : List Char} (h1 : ∃ a b, m = a ++ n ++ b)
    (h2 : ∃ c d, l = c ++ m ++ d) : ∃ e f, l = e ++ n ++ f := by
  obtain ⟨a, b, rfl⟩ := h1
  obtain ⟨c, d, rfl⟩ := h2
  exact ⟨c ++ a, b ++ d, by simp [List.append_assoc]⟩

theorem subseg_dropWhile (p : Char → Bool) (l : List Char) :
    ∃ a b, l = a ++ l.dropWhile p ++ b := by
  obtain ⟨t, ht⟩ := List.dropWhile_suffix (l := l) p
  exact ⟨t, [], by rw [List.append_nil, ht]⟩

theorem subseg_rdropWhile (p : Char → Bool) (l : List Char) :
    ∃ a b, l = a ++ List.rdropWhile p l ++ b := by
  obtain ⟨t, ht⟩ := List.dropWhile_suffix (l := l.reverse) p
  refine ⟨[], t.reverse, ?_⟩
  rw [List.nil_append, List.rdropWhile]
  have h2 := congrArg List.reverse ht
  simp only [List.reverse_append, List.reverse_reverse] at h2
  exact h2.symm

theorem subseg_pyStripL (l : List Char) : ∃ a b, l = a ++ pyStripL l ++ b := by
  rw [pyStripL_eq]
  exact subseg_trans (subseg_rdropWhile pyIsSpace _) (subseg_dropWhile pyIsSpace l)

theorem subseg_drop (n : Nat) (l : List Char) : ∃ a b, l = a ++ l.drop n ++ b :=
  ⟨l.take n, [], by simp⟩

theorem subseg_take (n : Nat) (l : List Char) : ∃ a b, l = a ++ l.take n ++ b :=
  ⟨[], l.drop n, by simp⟩

theorem subseg_refl (l : List Char) : ∃ a b, l = a ++ l ++ b :=
  ⟨[], [], by simp⟩

theorem subseg_stripLeadFence (t : List Char) :
    ∃ a b, t = a ++ stripLeadFence t ++ b := by
  rw [stripLeadFence]
  split
  · exact subseg_drop _ _
  · split
    · exact subseg_drop _ _
    · exact subseg_refl _

theorem subseg_stripTrailFence (t : List Char) :
    ∃ a b, t = a ++ stripTrailFence t ++ b := by
  rw [stripTrailFence]
  split
  · exact subseg_take _ _
  · exact subseg_refl _

/-- The text handed to `json.loads` is a contiguous slice of the raw reply:
every step of the block only removes characters at the two ends. -/
theorem strip_fencesL_subseg (x : List Char) :
    ∃ a b, x = a ++ strip_fencesL x ++ b := by
  rw [strip_fencesL]
  refine subseg_trans (subseg_pyStripL _) ?_
  refine subseg_trans (subseg_stripTrailFence _) ?_
  exact subseg_trans (subseg_stripLeadFence _) (subseg_pyStripL x)

theorem containsSub_iff : ∀ (l pat : List Char),
    containsSub l pat = true ↔ ∃ a b, l = a ++ pat ++ b
  | [], pat => by
    constructor
    · intro h
      have hpat : pat = [] := by
        cases pat with
        | nil => rfl
        | cons p ps => simp [containsSub] at h
      exact ⟨[], [], by simp [hpat]⟩
    · rintro ⟨a, b, hab⟩
      have ha : a = [] ∧ pat = [] := by
        constructor
        · cases a with
          | nil => rfl
          | cons x xs => simp at hab
        · cases a with
          | nil =>
            cases pat with
            | nil => rfl
            | cons p ps => simp at hab
          | cons x xs => simp at hab
      simp [containsSub, ha.2]
  | c :: tl, pat => by
    have hstep : containsSub (c :: tl) pat
        = (pyStartswith (c :: tl) pat || containsSub tl pat) := rfl
    rw [hstep]
    constructor
    · intro h
      rcases Bool.or_eq_true _ _ |>.mp h with h1 | h2
      · obtain ⟨r, hr⟩ := (pyStartswith_iff pat (c :: tl)).mp h1
        exact ⟨[], r, by simp [hr]⟩
      · obtain ⟨a, b, hab⟩ := (containsSub_iff tl pat).mp h2
        exact ⟨c :: a, b, by simp [hab]⟩
    · rintro ⟨a, b, hab⟩
      cases a with
      | nil =>
        have h1 : pyStartswith (c :: tl) pat = true := by
          rw [pyStartswith_iff]
          exact ⟨b, by simpa using hab⟩
        simp [h1]
      | cons x xs =>
        have h2 : containsSub tl pat = true := by
          rw [containsSub_iff tl pat]
          injection hab with h1 h2
          exact ⟨xs, b, by simpa using h2⟩
        simp [h2]

/-! ## C3 — fence stripping: idempotence fails, fence-free no-op holds -/

/-- C3 (counterexample): `strip_fences` is not idempotent. On `"``````x"`
the first pass removes one leading fence token and exposes a second one,
which a second pass removes: `strip_fences "``````x" = "```x"` but
`strip_fences (strip_fences "``````x") = "x"`. -/
theorem strip_fences_not_idempotent_cex :
    strip_fences (strip_fences "``````x") ≠ strip_fences "``````x" := by
  decide

/-- C3 (amended): the fence-stripping step is a no-op on fence-free input —
for every string whose trimmed form neither starts nor ends with a fence
token, `strip_fences` returns exactly the trimmed string — and it is
idempotent on every input whose once-stripped result is again fence-free;
idempotence does not hold in general (see the counterexample). -/
theorem strip_fences_noop_and_conditional_idem :
    (∀ x : String, pyStartswith (pyStripL x.data) fenceTok = false →
      pyEndswith (pyStripL x.data) fenceTok = false →
      strip_fences x = ⟨pyStripL x.data⟩) ∧
    (∀ x : String, pyStartswith (strip_fences x).data fenceTok = false →
      pyEndswith (strip_fences x).data fenceTok = false →
      strip_fences (strip_fences x) = strip_fences x) := by
  constructor
  · intro x h1 h2
    show (⟨strip_fencesL x.data⟩ : String) = ⟨pyStripL x.data⟩
    rw [strip_fencesL_no_fences h1 h2]
  · intro x h1 h2
    have hdata : (strip_fences x).data = strip_fencesL x.data := rfl
    rw [hdata] at h1 h2
    have h1' : pyStartswith (pyStripL (strip_fencesL x.data)) fenceTok = false := by
      rw [pyStripL_strip_fencesL]
      exact h1
    have h2' : pyEndswith (pyStripL (strip_fencesL x.data)) fenceTok = false := by
      rw [pyStripL_strip_fencesL]
      exact h2
    show (⟨strip_fencesL (strip_fencesL x.data)⟩ : String) = ⟨strip_fencesL x.data⟩
    rw [strip_fencesL_no_fences h1' h2', pyStripL_strip_fencesL]

/-- Witness for C3's amended theorem at concrete inputs: `"  \x7b\x7d "`
trims to `"\x7b\x7d"`, and a once-stripped fenced reply is a fixed point. -/
theorem strip_fences_noop_and_conditional_idem_witness :
    strip_fences "  \x7b\x7d " = "\x7b\x7d" ∧
    strip_fences (strip_fences "```json\n\x7b\x7d\n```") = strip_fences "```json\n\x7b\x7d\n```" := by
  constructor
  · exact strip_fences_noop_and_conditional_idem.1 "  \x7b\x7d " (by decide) (by decide)
  · exact strip_fences_noop_and_conditional_idem.2 "```json\n\x7b\x7d\n```" (by decide) (by decide)

/-! ## C10 — the parsed text is a contiguous slice of the raw reply -/

/-- C10: for every raw reply `x`, the text handed to the JSON parser,
`strip_fences x`, is a contiguous substring of `x` — the trim and
fence-strip steps only remove characters at the two ends, never inserting,
reordering or altering any; in particular a trailing fence token is
removed even when no leading fence was present (`"abc```" ↦ "abc"`). -/
theorem strip_fences_contiguous_slice :
    (∀ x : String, ∃ a b, x.data = a ++ (strip_fences x).data ++ b) ∧
    strip_fences "abc```" = "abc" := by
  constructor
  · intro x
    exact strip_fencesL_subseg x.data
  · decide

/-! ## Shared facts about the reply-processing tail -/

theorem normalizeReply_ok {r : String} {j : Json}
    (h : jsonParse (strip_fences r) = some j) : normalizeReply r = .ok j := by
  rw [normalizeReply, h]

theorem normalizeReply_err {r : String}
    (h : jsonParse (strip_fences r) = none) : normalizeReply r = .jsonError r := by
  rw [normalizeReply, h]

theorem extract_text_eq (o : String → String) (t : String) :
    extract_info_from_text o t = normalizeReply (o (textPrompt t)) := rfl

theorem extract_multi_eq_of_collect {o : List GenContent → String}
    {files : List UploadedFile} {imgs : List Img}
    (hc : collectImages files = some imgs) (hne : imgs ≠ []) :
    extract_info_from_multiple_files o files =
      match normalizeReply (o (buildMultiFileContents imgs)) with
      | .ok j => .ok j
      | .jsonError raw => .jsonError raw := by
  rw [extract_info_from_multiple_files, hc]
  have h0 : imgs.isEmpty = false := by
    cases imgs with
    | nil => exact absurd rfl hne
    | cons a l => rfl
  simp [h0]

/-! ## C2 — malformed replies fail with the original raw text -/

/-- C2: whenever the raw model reply, after trimming and fence stripping,
is not valid JSON, both extraction functions take the
`except json.JSONDecodeError` branch — which carries the original
untouched `response.text` — and return `None`; no record, partial or
otherwise, is produced (first conjunct: `extract_info_from_text`; second:
`extract_info_from_multiple_files`). -/
theorem malformed_reply_fails_with_raw_text :
    (∀ (o : String → String) (text : String),
      jsonParse (strip_fences (o (textPrompt text))) = none →
      extract_info_from_text o text = .jsonError (o (textPrompt text))) ∧
    (∀ (o : List GenContent → String) (files : List UploadedFile) (imgs : List Img),
      collectImages files = some imgs → imgs ≠ [] →
      jsonParse (strip_fences (o (buildMultiFileContents imgs))) = none →
      extract_info_from_multiple_files o files =
        .jsonError (o (buildMultiFileContents imgs))) := by
  constructor
  · intro o t h
    rw [extract_text_eq, normalizeReply_err h]
  · intro o files imgs hc hne h
    rw [extract_multi_eq_of_collect hc hne, normalizeReply_err h]

/-- Witness for C2 at the spec's own example: the truncated reply
`\x7b"patient_profile": \x7b` is not valid JSON, so both functions return the
malformed-response outcome carrying that exact raw text. -/
theorem malformed_reply_fails_with_raw_text_witness :
    extract_info_from_text (fun _ => "\x7b\"patient_profile\": \x7b") "紹介状"
      = .jsonError "\x7b\"patient_profile\": \x7b" ∧
    extract_info_from_multiple_files (fun _ => "\x7b\"patient_profile\": \x7b")
        [⟨"image/png", [], some ⟨1⟩⟩]
      = .jsonError "\x7b\"patient_profile\": \x7b" := by
  constructor
  · exact malformed_reply_fails_with_raw_text.1 _ "紹介状" (by rfl)
  · exact malformed_reply_fails_with_raw_text.2 _ _ [⟨1⟩] (by rfl) (by simp) (by rfl)

/-! ## C1 — no backfill: the parsed object is returned as-is -/

/-- C1 (counterexample): the claim "the returned record contains every field
declared in the active schema, absent fields filled with defaults" is
false. A reply of `\x7b\x7d` parses to the empty object, which the code returns
unchanged; `diagnosis` is declared by the prompt's schema yet absent from
the returned record. -/
theorem no_backfill_cex :
    extract_info_from_text (fun _ => "\x7b\x7d") "紹介状" = .ok (.obj []) ∧
    "diagnosis" ∈ schemaTopLevelFields ∧
    jlookup (.obj []) "diagnosis" = none := by
  refine ⟨by rfl, by decide, rfl⟩

/-- C1 (amended): after a successful JSON parse the extraction functions
return the parsed object exactly as `json.loads` produced it — no backfill
is performed, so any declared field absent from the reply stays absent
(rendering tolerates this with `dict.get` defaults). -/
theorem extraction_returns_parsed_object_unchanged :
    ∀ (o : String → String) (text : String) (j : Json),
      jsonParse (strip_fences (o (textPrompt text))) = some j →
      extract_info_from_text o text = .ok j := by
  intro o t j h
  rw [extract_text_eq, normalizeReply_ok h]

/-- Witness for C1's amended theorem: a reply declaring only `diagnosis`
comes back as exactly that one-field object. -/
theorem extraction_returns_parsed_object_unchanged_witness :
    extract_info_from_text (fun _ => "\x7b\"diagnosis\": []\x7d") "紹介状"
      = .ok (.obj [("diagnosis", .arr [])]) :=
  extraction_returns_parsed_object_unchanged _ _ _ (by rfl)

/-! ## C4 — no schema validation, no coercion -/

/-- C4 (counterexample): the claim "a single string in a list-declared field
is normalized to the one-element list" is false. With the reply
`\x7b"diagnosis": "#高血圧症"\x7d` the returned record holds the raw string for
the list-declared field `diagnosis`, and that value is not the one-element
list the claim requires. -/
theorem no_coercion_cex :
    extract_info_from_text (fun _ => "\x7b\"diagnosis\": \"#高血圧症\"\x7d") "紹介状"
      = .ok (.obj [("diagnosis", .str "#高血圧症")]) ∧
    "diagnosis" ∈ schemaTopLevelFields ∧
    Json.str "#高血圧症" ≠ Json.arr [.str "#高血圧症"] := by
  refine ⟨by rfl, by decide, fun h => Json.noConfusion h⟩

/-- C4 (amended): after a successful parse the code performs no type
validation and no coercion whatsoever — there is no `SchemaViolationError`
and nothing is rejected or normalized: a field holding a bare string is
returned holding that same bare string. -/
theorem no_validation_no_coercion :
    ∀ (o : String → String) (text : String) (k s : String),
      jsonParse (strip_fences (o (textPrompt text))) = some (.obj [(k, .str s)]) →
      extract_info_from_text o text = .ok (.obj [(k, .str s)]) := by
  intro o t k s h
  rw [extract_text_eq, normalizeReply_ok h]

/-- Witness for C4's amended theorem at the counterexample's reply. -/
theorem no_validation_no_coercion_witness :
    extract_info_from_text (fun _ => "\x7b\"diagnosis\": \"#高血圧症\"\x7d") "退院時要約"
      = .ok (.obj [("diagnosis", .str "#高血圧症")]) :=
  no_validation_no_coercion _ _ "diagnosis" "#高血圧症" (by rfl)

/-! ## C7 — empty/undecodable inputs fail before any model call -/

/-- C7: when no uploaded file yields a decodable image, the multi-file
extraction shows the empty-input error and returns `None`; when a non-PDF
file cannot be opened as an image, it fails through the generic exception
branch instead. In both cases the outcome is the same for every model
oracle `o` — the failure happens before the request is built, so no model
request is ever issued. -/
theorem empty_or_unsupported_input_fails_before_model :
    (∀ (o : List GenContent → String) (files : List UploadedFile),
      collectImages files = some [] →
      extract_info_from_multiple_files o files = .emptyImages) ∧
    (∀ (o : List GenContent → String) (files : List UploadedFile),
      collectImages files = none →
      extract_info_from_multiple_files o files = .fileError) := by
  constructor
  · intro o files hc
    rw [extract_info_from_multiple_files, hc]
    rfl
  · intro o files hc
    rw [extract_info_from_multiple_files, hc]

/-- Witness for C7: an empty upload list yields the empty-input outcome; a
PNG that `Image.open` cannot decode yields the generic failure — under any
oracle. -/
theorem empty_or_unsupported_input_fails_before_model_witness :
    extract_info_from_multiple_files (fun _ => "\x7b\x7d") [] = .emptyImages ∧
    extract_info_from_multiple_files (fun _ => "\x7b\x7d") [⟨"image/png", [], none⟩]
      = .fileError := by
  constructor
  · exact empty_or_unsupported_input_fails_before_model.1 _ [] (by rfl)
  · exact empty_or_unsupported_input_fails_before_model.2 _ _ (by rfl)

/-! ## C8 — request construction is pure and deterministic -/

/-- C8: building the request is pure: the prompt sent for a text extraction
is exactly the fixed instruction template concatenated with the input, the
whole function is the composition of that construction with the reply
normalizer, and its outcome depends on nothing but the input text and the
collaborator's reply function — equal inputs and equal collaborator
behaviour give equal results. -/
theorem request_construction_pure_deterministic :
    (∀ text : String,
      textPrompt text = EXTRACTION_PROMPT ++ "\n\n入力テキスト:\n" ++ text) ∧
    (∀ (o : String → String) (text : String),
      extract_info_from_text o text = normalizeReply (o (textPrompt text))) ∧
    (∀ (o1 o2 : String → String) (t1 t2 : String), t1 = t2 →
      (∀ p, o1 p = o2 p) →
      extract_info_from_text o1 t1 = extract_info_from_text o2 t2) := by
  refine ⟨fun _ => rfl, fun _ _ => rfl, ?_⟩
  rintro o1 o2 t1 t2 rfl h
  rw [extract_text_eq, extract_text_eq, h]

/-- Witness for C8's determinism conjunct at concrete equal inputs and
pointwise-equal oracles. -/
theorem request_construction_pure_deterministic_witness :
    extract_info_from_text (fun _ => "\x7b\x7d") "山田太郎"
      = extract_info_from_text (fun p => strip_fences (p.take 0) ++ "\x7b\x7d") "山田太郎" :=
  request_construction_pure_deterministic.2.2 _ _ _ _ rfl (fun p => by
    show "\x7b\x7d" = strip_fences (p.take 0) ++ "\x7b\x7d"
    have h0 : p.take 0 = "" := by
      show ⟨p.data.take 0⟩ = ("" : String)
      rfl
    rw [h0]
    rfl)

/-! ## C5 — merge directive present, prefer-most-complete directive absent -/

/-- C5 (counterexample): a request built from two artifacts carries exactly
the fixed `EXTRACTION_PROMPT` as its instruction text; that text does
direct the model to merge everything into one record, but it contains no
"prefer the most complete value" directive — the string 最も完全 does not
occur in it (it occurs only in the Streamlit help text, which is never
sent to the model). -/
theorem merge_directive_incomplete_cex :
    (buildMultiFileContents [⟨1⟩, ⟨2⟩]).map GenContent.textPart = [EXTRACTION_PROMPT] ∧
    strContains EXTRACTION_PROMPT "すべての情報を統合して1つの初診カルテとして出力してください" = true ∧
    strContains EXTRACTION_PROMPT "最も完全" = false := by
  refine ⟨rfl, prompt_has_merge_directive, ?_⟩
  by_contra hc
  rw [Bool.not_eq_false] at hc
  rw [strContains, containsSub_iff] at hc
  obtain ⟨a, b, hab⟩ := hc
  have hsplit : ("最も完全" : String).data = "最も".data ++ "完全".data := by decide
  have h2 : strContains EXTRACTION_PROMPT "完全" = true := by
    rw [strContains, containsSub_iff]
    exact ⟨a ++ "最も".data, b, by rw [hab, hsplit]; simp [List.append_assoc]⟩
  rw [prompt_no_kanzen] at h2
  exact absurd h2 (by simp)

/-- C5 (amended): for every request built from more than one artifact, the
instruction text is the fixed prompt, which explicitly directs the model
to merge all pages/images into one record (`src/app.py` line 53) — but it
does not ask the model to prefer the more complete value; no wording about
completeness (完全) occurs anywhere in the prompt. -/
theorem multiartifact_prompt_directs_merge_only :
    ∀ (imgs : List Img), 1 < imgs.length →
      (buildMultiFileContents imgs).map GenContent.textPart = [EXTRACTION_PROMPT] ∧
      strContains EXTRACTION_PROMPT "すべての情報を統合して1つの初診カルテとして出力してください" = true ∧
      strContains EXTRACTION_PROMPT "完全" = false := by
  intro imgs _
  exact ⟨rfl, prompt_has_merge_directive, prompt_no_kanzen⟩

/-- Witness for C5's amended theorem at a concrete two-artifact request. -/
theorem multiartifact_prompt_directs_merge_only_witness :
    (buildMultiFileContents [⟨10⟩, ⟨11⟩]).map GenContent.textPart = [EXTRACTION_PROMPT] ∧
    strContains EXTRACTION_PROMPT "すべての情報を統合して1つの初診カルテとして出力してください" = true ∧
    strContains EXTRACTION_PROMPT "完全" = false :=
  multiartifact_prompt_directs_merge_only [⟨10⟩, ⟨11⟩] (by decide)

/-! ## C9 — the voice variant's format call always raises -/

/-- C9: for every transcript, substituting it into `SOAP_PROMPT_TEMPLATE`
via `str.format` raises — the template's literal JSON braces are not
escaped, so the first `\x7b` (line 51 of `src/voice_soap.py`) opens a
replacement field named `\n  "subjective"`, which is not among the keyword
arguments (`transcribed_text`), a `KeyError`. Consequently
`create_soap_from_text` always takes its error branch and returns `None`:
no SOAP record is ever produced, for any input and any model behaviour. -/
theorem soap_format_always_raises :
    ∀ (o : String → String) (transcribed_text : String),
      pyFormat SOAP_PROMPT_TEMPLATE [("transcribed_text", transcribed_text)] = none ∧
      create_soap_from_text o transcribed_text = none := by
  intro o t
  have h : pyFormat SOAP_PROMPT_TEMPLATE [("transcribed_text", t)] = none := by rfl
  refine ⟨h, ?_⟩
  rw [create_soap_from_text, h]

/-! ## C6 — the serialize/normalize round trip

The development below proves that feeding a serialized record through the
normalizer's fence-stripping and parse steps returns the record: first the
string-escape round trip, then the value round trip by induction over
`RecLike`, then the fact that fence stripping is the identity on a
serialized object. -/

theorem hexVal_hexDigit : ∀ k, k < 16 → hexVal (hexDigit k) = some k := by decide

theorem char_not_surrogate (c : Char) : c.toNat < 0xd800 ∨ 0xdfff < c.toNat := by
  rcases c.valid with h | h
  · exact Or.inl h
  · exact Or.inr h.1

theorem unitsToChars_map : ∀ l : List Char, unitsToChars (l.map Char.toNat) = l
  | [] => rfl
  | [c] => by
    show unitsToChars [c.toNat] = [c]
    rw [unitsToChars, Char.ofNat_toNat]
  | c1 :: c2 :: rest => by
    show unitsToChars (c1.toNat :: c2.toNat :: rest.map Char.toNat) = c1 :: c2 :: rest
    have hcond : ¬((0xd800 ≤ c1.toNat ∧ c1.toNat ≤ 0xdbff) ∧
        (0xdc00 ≤ c2.toNat ∧ c2.toNat ≤ 0xdfff)) := by
      rcases char_not_surrogate c1 with h | h
      · rintro ⟨⟨h1, h2⟩, _⟩
        omega
      · rintro ⟨⟨h1, h2⟩, _⟩
        omega
    rw [unitsToChars, if_neg hcond, Char.ofNat_toNat]
    have ih := unitsToChars_map (c2 :: rest)
    rw [List.map_cons] at ih
    rw [ih]

theorem escList_append (a b : List Char) :
    escList (a ++ b) = escList a ++ escList b := by
  induction a with
  | nil => rfl
  | cons c tl ih =>
    rw [List.cons_append, escList, escList, ih, List.append_assoc]

theorem parseJStrUnits_esc : ∀ (l rest : List Char),
    parseJStrUnits (escList l ++ '"' :: rest) = some (l.map Char.toNat, rest)
  | [], rest => rfl
  | c :: l', rest => by
    have ih := parseJStrUnits_esc l' rest
    show parseJStrUnits ((escChar c ++ escList l') ++ '"' :: rest) = _
    rw [List.append_assoc]
    rw [escChar]
    by_cases h1 : c = '"'
    · subst h1
      rw [if_pos rfl]
      have step : parseJStrUnits ('\\' :: '"' :: (escList l' ++ '"' :: rest))
          = (parseJStrUnits (escList l' ++ '"' :: rest)).map
              (fun p => (('"').toNat :: p.1, p.2)) := rfl
      rw [List.cons_append, List.cons_append, List.nil_append, step, ih]
      rfl
    · rw [if_neg h1]
      by_cases h2 : c = '\\'
      · subst h2
        rw [if_pos rfl]
        have step : parseJStrUnits ('\\' :: '\\' :: (escList l' ++ '"' :: rest))
            = (parseJStrUnits (escList l' ++ '"' :: rest)).map
                (fun p => (('\\').toNat :: p.1, p.2)) := rfl
        rw [List.cons_append, List.cons_append, List.nil_append, step, ih]
        rfl
      · rw [if_neg h2]
        by_cases h3 : c = Char.ofNat 10
        · subst h3
          rw [if_pos rfl]
          have step : parseJStrUnits ('\\' :: 'n' :: (escList l' ++ '"' :: rest))
              = (parseJStrUnits (escList l' ++ '"' :: rest)).map
                  (fun p => ((Char.ofNat 10).toNat :: p.1, p.2)) := rfl
          rw [List.cons_append, List.cons_append, List.nil_append, step, ih]
          rfl
        · rw [if_neg h3]
          by_cases h4 : c = Char.ofNat 13
          · subst h4
            rw [if_pos rfl]
            have step : parseJStrUnits ('\\' :: 'r' :: (escList l' ++ '"' :: rest))
                = (parseJStrUnits (escList l' ++ '"' :: rest)).map
                    (fun p => ((Char.ofNat 13).toNat :: p.1, p.2)) := rfl
            rw [List.cons_append, List.cons_append, List.nil_append, step, ih]
            rfl
          · rw [if_neg h4]
            by_cases h5 : c = Char.ofNat 9
            · subst h5
              rw [if_pos rfl]
              have step : parseJStrUnits ('\\' :: 't' :: (escList l' ++ '"' :: rest))
                  = (parseJStrUnits (escList l' ++ '"' :: rest)).map
                      (fun p => ((Char.ofNat 9).toNat :: p.1, p.2)) := rfl
              rw [List.cons_append, List.cons_append, List.nil_append, step, ih]
              rfl
            · rw [if_neg h5]
              by_cases h6 : c = Char.ofNat 8
              · subst h6
                rw [if_pos rfl]
                have step : parseJStrUnits ('\\' :: 'b' :: (escList l' ++ '"' :: rest))
                    = (parseJStrUnits (escList l' ++ '"' :: rest)).map
                        (fun p => ((Char.ofNat 8).toNat :: p.1, p.2)) := rfl
                rw [List.cons_append, List.cons_append, List.nil_append, step, ih]
                rfl
              · rw [if_neg h6]
                by_cases h7 : c = Char.ofNat 12
                · subst h7
                  rw [if_pos rfl]
                  have step : parseJStrUnits ('\\' :: 'f' :: (escList l' ++ '"' :: rest))
                      = (parseJStrUnits (escList l' ++ '"' :: rest)).map
                          (fun p => ((Char.ofNat 12).toNat :: p.1, p.2)) := rfl
                  rw [List.cons_append, List.cons_append, List.nil_append, step, ih]
                  rfl
                · rw [if_neg h7]
                  by_cases h8 : c.toNat < 32
                  · rw [if_pos h8]
                    have step : parseJStrUnits ('\\' :: 'u' :: '0' :: '0' ::
                          hexDigit (c.toNat / 16) :: hexDigit (c.toNat % 16) ::
                          (escList l' ++ '"' :: rest))
                        = (match hex4 '0' '0' (hexDigit (c.toNat / 16))
                              (hexDigit (c.toNat % 16)) with
                           | none => none
                           | some n => (parseJStrUnits (escList l' ++ '"' :: rest)).map
                               (fun p => (n :: p.1, p.2))) := rfl
                    simp only [List.cons_append, List.nil_append]
                    rw [step]
                    have hhi : hexVal (hexDigit (c.toNat / 16)) = some (c.toNat / 16) :=
                      hexVal_hexDigit _ (by omega)
                    have hlo : hexVal (hexDigit (c.toNat % 16)) = some (c.toNat % 16) :=
                      hexVal_hexDigit _ (by omega)
                    have hhex : hex4 '0' '0' (hexDigit (c.toNat / 16))
                        (hexDigit (c.toNat % 16)) = some c.toNat := by
                      have hv0 : hexVal '0' = some 0 := rfl
                      simp only [hex4, hv0, hhi, hlo]
                      congr 1
                      omega
                    rw [hhex, ih]
                    rfl
                  · rw [if_neg h8]
                    rw [List.cons_append, List.nil_append]
                    rw [parseJStrUnits.eq_def]
                    have hq : (c :: (escList l' ++ '"' :: rest)) ≠ [] := by simp
                    split
                    · rename_i heq
                      exact absurd heq (by simp)
                    · rename_i heq
                      injection heq with hc _
                      exact absurd hc h1
                    · rename_i a b cc d e cs heq
                      injection heq with hc _
                      exact absurd hc h2
                    · rename_i e cs heq
                      injection heq with hc _
                      exact absurd hc h2
                    · rename_i c0 cs heq
                      injection heq with hc htl
                      subst hc
                      rw [if_neg h8, ← htl, ih]
                      rfl

/-- The string body round trip: parsing an escaped body recovers it. -/
theorem parseJStrBody_esc (l rest : List Char) :
    parseJStrBody (escList l ++ '"' :: rest) = some (l, rest) := by
  rw [parseJStrBody, parseJStrUnits_esc]
  simp [unitsToChars_map]

theorem skipWs_cons_not {c : Char} {l : List Char} (h : jsonWs c = false) :
    skipWs (c :: l) = c :: l := by
  rw [skipWs, h]
  simp

theorem skipWs_append_ws : ∀ (w l : List Char), (∀ c ∈ w, jsonWs c = true) →
    skipWs (w ++ l) = skipWs l
  | [], l, _ => rfl
  | c :: w', l, h => by
    rw [List.cons_append, skipWs, h c (by simp)]
    simp only [if_true]
    exact skipWs_append_ws w' l (fun x hx => h x (by simp [hx]))

/-- One-step unfolding of the parser in value mode (definitional). -/
theorem parseF_value_step (n : Nat) (s : List Char) :
    parseF (n + 1) .value s
      = match skipWs s with
        | [] => none
        | c :: cs =>
          if c = '"' then (parseJStrBody cs).map (fun p => (.str ⟨p.1⟩, p.2))
          else if c = lbraceC then
            match skipWs cs with
            | c2 :: cs2 =>
              if c2 = rbraceC then some (.obj [], cs2) else parseF n (.objItems []) cs
            | [] => none
          else if c = '[' then
            match skipWs cs with
            | c2 :: cs2 => if c2 = ']' then some (.arr [], cs2) else parseF n (.arrItems []) cs
            | [] => none
          else if pyStartswith (c :: cs) "true".data then some (.jbool true, (c :: cs).drop 4)
          else if pyStartswith (c :: cs) "false".data then some (.jbool false, (c :: cs).drop 5)
          else if pyStartswith (c :: cs) "null".data then some (.null, (c :: cs).drop 4)
          else if pyStartswith (c :: cs) "NaN".data then some (.num "NaN", (c :: cs).drop 3)
          else if pyStartswith (c :: cs) "Infinity".data then
            some (.num "Infinity", (c :: cs).drop 8)
          else if pyStartswith (c :: cs) "-Infinity".data then
            some (.num "-Infinity", (c :: cs).drop 9)
          else (parseNumLex (c :: cs)).map (fun p => (.num ⟨p.1⟩, p.2)) := rfl

/-- A leading whitespace run is invisible to the parser in value mode. -/
theorem parseF_value_ws (w : List Char) (hw : ∀ c ∈ w, jsonWs c = true)
    (n : Nat) (l : List Char) :
    parseF (n + 1) .value (w ++ l) = parseF (n + 1) .value l := by
  rw [parseF_value_step, parseF_value_step, skipWs_append_ws w l hw]

/-- The value parser on an opening quote (definitional). -/
theorem parseF_value_quote (n : Nat) (x : List Char) :
    parseF (n + 1) .value ('"' :: x)
      = (parseJStrBody x).map (fun p => (.str ⟨p.1⟩, p.2)) := rfl

/-- The value parser on an opening bracket (definitional). -/
theorem parseF_value_arr_step (n : Nat) (cs : List Char) :
    parseF (n + 1) .value ('[' :: cs)
      = match skipWs cs with
        | c2 :: cs2 => if c2 = ']' then some (.arr [], cs2) else parseF n (.arrItems []) cs
        | [] => none := rfl

/-- The value parser on an opening brace (definitional). -/
theorem parseF_value_obj_step (n : Nat) (cs : List Char) :
    parseF (n + 1) .value (lbraceC :: cs)
      = match skipWs cs with
        | c2 :: cs2 => if c2 = rbraceC then some (.obj [], cs2) else parseF n (.objItems []) cs
        | [] => none := rfl

/-- One-step unfolding of the array-items loop (definitional). -/
theorem parseF_arrItems_step (n : Nat) (acc : List Json) (s : List Char) :
    parseF (n + 1) (.arrItems acc) s
      = match parseF n .value s with
        | none => none
        | some (v, r) =>
          match skipWs r with
          | c :: cs =>
            if c = ',' then parseF n (.arrItems (acc ++ [v])) cs
            else if c = ']' then some (.arr (acc ++ [v]), cs)
            else none
          | [] => none := rfl

/-- One-step unfolding of the object-members loop (definitional). -/
theorem parseF_objItems_step (n : Nat) (acc : List (String × Json)) (s : List Char) :
    parseF (n + 1) (.objItems acc) s
      = match skipWs s with
        | c :: cs =>
          if c = '"' then
            match parseJStrBody cs with
            | none => none
            | some (k, r1) =>
              match skipWs r1 with
              | c2 :: cs2 =>
                if c2 = ':' then
                  match parseF n .value cs2 with
                  | none => none
                  | some (v, r2) =>
                    let acc2 := objInsert acc ⟨k⟩ v
                    match skipWs r2 with
                    | c3 :: cs3 =>
                      if c3 = ',' then parseF n (.objItems acc2) cs3
                      else if c3 = rbraceC then some (.obj acc2, cs3)
                      else none
                    | [] => none
                else none
              | [] => none
          else none
        | [] => none := rfl

/-- Every serialized record value begins with a character that is not
whitespace, not a closer, and not a separator (`"`, `[` or the brace). -/
theorem jserL_head {j : Json} (hj : RecLike j) :
    ∃ c t, jserL j = c :: t ∧ jsonWs c = false ∧ c ≠ ']' ∧ c ≠ rbraceC ∧ c ≠ ',' := by
  cases hj with
  | str s =>
    refine ⟨'"', escList s.data ++ ['"'], ?_, by decide, by decide, by decide, by decide⟩
    simp [jserL]
  | arr xs h =>
    cases xs with
    | nil =>
      refine ⟨'[', [']'], ?_, by decide, by decide, by decide, by decide⟩
      simp [jserL]
    | cons x xs' =>
      refine ⟨'[', jserItemsL x xs' ++ [']'], ?_, by decide, by decide, by decide, by decide⟩
      simp [jserL]
  | obj ms hnd h =>
    cases ms with
    | nil =>
      refine ⟨lbraceC, [rbraceC], ?_, by decide, by decide, by decide, by decide⟩
      simp [jserL]
    | cons m ms' =>
      refine ⟨lbraceC, jserMembersL m ms' ++ [rbraceC], ?_, by decide, by decide, by decide,
        by decide⟩
      simp [jserL]

/-- `skipWs` is the identity in front of a serialized record value. -/
theorem skipWs_jserL {j : Json} (hj : RecLike j) (x : List Char) :
    skipWs (jserL j ++ x) = jserL j ++ x := by
  obtain ⟨c, t, he, hws, _, _, _⟩ := jserL_head hj
  rw [he, List.cons_append, skipWs_cons_not hws]

theorem jserItemsL_decompose (x : Json) (xs : List Json) :
    ∃ t, jserItemsL x xs = jserL x ++ t := by
  cases xs with
  | nil => exact ⟨[], by simp [jserItemsL]⟩
  | cons y ys => exact ⟨',' :: ' ' :: jserItemsL y ys, by simp [jserItemsL]⟩

/-- The array-items loop parses a serialized item list back, appending to
the accumulator; `w` is an already-emitted whitespace run (empty at the
first item, one space after each comma). -/
theorem parse_items : ∀ (xs : List Json) (x : Json) (acc : List Json)
    (w rest : List Char) (fuel : Nat),
    (∀ y ∈ x :: xs, ValueRT y) → (∀ y ∈ x :: xs, RecLike y) →
    (∀ c ∈ w, jsonWs c = true) →
    (jserItemsL x xs).length + 2 ≤ fuel →
    parseF fuel (.arrItems acc) (w ++ (jserItemsL x xs ++ ']' :: rest))
      = some (.arr (acc ++ x :: xs), rest)
  | [], x, acc, w, rest, fuel, hrt, hrl, hw, hf => by
    have hitems : jserItemsL x [] = jserL x := by simp [jserItemsL]
    rw [hitems] at hf ⊢
    obtain ⟨n, rfl⟩ : ∃ n, fuel = n + 1 := ⟨fuel - 1, by omega⟩
    rw [parseF_arrItems_step]
    obtain ⟨m, rfl⟩ : ∃ m, n = m + 1 := ⟨n - 1, by omega⟩
    have hval : parseF (m + 1) .value (w ++ (jserL x ++ ']' :: rest))
        = some (x, ']' :: rest) := by
      rw [parseF_value_ws w hw]
      exact hrt x (by simp) (']' :: rest) (m + 1) (by omega)
    rw [hval]
    have hsk : skipWs (']' :: rest) = ']' :: rest := skipWs_cons_not (by decide)
    simp [hsk]
  | y :: ys, x, acc, w, rest, fuel, hrt, hrl, hw, hf => by
    have hitems : jserItemsL x (y :: ys) = jserL x ++ ',' :: ' ' :: jserItemsL y ys := by
      simp [jserItemsL]
    rw [hitems] at hf ⊢
    obtain ⟨n, rfl⟩ : ∃ n, fuel = n + 1 := ⟨fuel - 1, by omega⟩
    rw [parseF_arrItems_step]
    obtain ⟨m, rfl⟩ : ∃ m, n = m + 1 := ⟨n - 1, by omega⟩
    have hshape : (jserL x ++ ',' :: ' ' :: jserItemsL y ys) ++ ']' :: rest
        = jserL x ++ ',' :: ' ' :: (jserItemsL y ys ++ ']' :: rest) := by
      simp [List.append_assoc]
    rw [hshape]
    have hlen : (jserL x).length + 1 ≤ m + 1 := by
      rw [List.length_append] at hf
      simp at hf
      omega
    have hval : parseF (m + 1) .value
        (w ++ (jserL x ++ ',' :: ' ' :: (jserItemsL y ys ++ ']' :: rest)))
        = some (x, ',' :: ' ' :: (jserItemsL y ys ++ ']' :: rest)) := by
      rw [parseF_value_ws w hw]
      exact hrt x (by simp) _ (m + 1) hlen
    rw [hval]
    have hsk : skipWs (',' :: ' ' :: (jserItemsL y ys ++ ']' :: rest))
        = ',' :: ' ' :: (jserItemsL y ys ++ ']' :: rest) := skipWs_cons_not (by decide)
    have hrec := parse_items ys y (acc ++ [x]) [' '] rest (m + 1)
      (fun z hz => hrt z (by simp at hz ⊢; tauto))
      (fun z hz => hrl z (by simp at hz ⊢; tauto))
      (by intro c hc; simp at hc; rw [hc]; rfl)
      (by simp at hf; omega)
    rw [List.singleton_append] at hrec
    simp [hsk, hrec]

theorem objInsert_fresh : ∀ (ms : List (String × Json)) (k : String) (v : Json),
    k ∉ ms.map Prod.fst → objInsert ms k v = ms ++ [(k, v)]
  | [], k, v, _ => rfl
  | (k0, v0) :: rest, k, v, h => by
    rw [objInsert]
    have hne : ¬(k0 = k) := by
      intro he
      exact h (by simp [he])
    rw [if_neg hne, objInsert_fresh rest k v (fun hm => h (by simp [hm]))]
    rfl

/-- The object-members loop parses a serialized member list back. The
key-distinctness hypothesis makes every `objInsert` a plain append. -/
theorem parse_members : ∀ (ms : List (String × Json)) (m : String × Json)
    (acc : List (String × Json)) (w rest : List Char) (fuel : Nat),
    (∀ p ∈ m :: ms, ValueRT p.2) → (∀ p ∈ m :: ms, RecLike p.2) →
    (∀ c ∈ w, jsonWs c = true) →
    ((acc ++ m :: ms).map Prod.fst).Nodup →
    (jserMembersL m ms).length + 2 ≤ fuel →
    parseF fuel (.objItems acc) (w ++ (jserMembersL m ms ++ rbraceC :: rest))
      = some (.obj (acc ++ m :: ms), rest)
  | [], (k, v), acc, w, rest, fuel, hrt, hrl, hw, hnd, hf => by
    have hm : jserMembersL (k, v) []
        = '"' :: (escList k.data ++ '"' :: ':' :: ' ' :: jserL v) := by
      simp [jserMembersL]
    rw [hm] at hf ⊢
    obtain ⟨n, rfl⟩ : ∃ n, fuel = n + 1 := ⟨fuel - 1, by omega⟩
    obtain ⟨m2, rfl⟩ : ∃ m2, n = m2 + 1 := ⟨n - 1, by omega⟩
    rw [parseF_objItems_step]
    have hskw : skipWs (w ++ ('"' :: (escList k.data ++ '"' :: ':' :: ' ' :: jserL v)
          ++ rbraceC :: rest))
        = '"' :: ((escList k.data ++ '"' :: ':' :: ' ' :: jserL v) ++ rbraceC :: rest) := by
      rw [skipWs_append_ws _ _ hw, List.cons_append, skipWs_cons_not (by decide)]
    rw [hskw]
    have hsk1 : skipWs (':' :: ' ' :: (jserL v ++ rbraceC :: rest))
        = ':' :: ' ' :: (jserL v ++ rbraceC :: rest) := skipWs_cons_not (by decide)
    have hsk2 : skipWs (rbraceC :: rest) = rbraceC :: rest :=
      skipWs_cons_not (by decide)
    have hval : parseF (m2 + 1) .value (' ' :: (jserL v ++ rbraceC :: rest))
        = some (v, rbraceC :: rest) := by
      have hw1 : ∀ c ∈ [' '], jsonWs c = true := by
        intro c hc
        simp at hc
        rw [hc]
        rfl
      have hws := parseF_value_ws [' '] hw1 m2 (jserL v ++ rbraceC :: rest)
      rw [List.singleton_append] at hws
      rw [hws]
      exact hrt (k, v) (by simp) _ (m2 + 1) (by
        simp at hf ⊢
        omega)
    have hfresh : k ∉ acc.map Prod.fst := by
      rw [List.map_append] at hnd
      have hdisj := List.disjoint_of_nodup_append hnd
      intro hk
      exact hdisj hk (by simp)
    have hc1 : ¬(rbraceC = ',') := by decide
    simp [parseJStrBody_esc, hsk1, hsk2, hval, objInsert_fresh acc k v hfresh, hc1]
  | (k2, v2) :: ms', (k, v), acc, w, rest, fuel, hrt, hrl, hw, hnd, hf => by
    have hm : jserMembersL (k, v) ((k2, v2) :: ms')
        = '"' :: (escList k.data ++ '"' :: ':' :: ' ' ::
            (jserL v ++ ',' :: ' ' :: jserMembersL (k2, v2) ms')) := by
      simp [jserMembersL]
    rw [hm] at hf ⊢
    obtain ⟨n, rfl⟩ : ∃ n, fuel = n + 1 := ⟨fuel - 1, by omega⟩
    obtain ⟨m2, rfl⟩ : ∃ m2, n = m2 + 1 := ⟨n - 1, by omega⟩
    rw [parseF_objItems_step]
    have hskw : skipWs (w ++ ('"' :: (escList k.data ++ '"' :: ':' :: ' ' ::
            (jserL v ++ ',' :: ' ' :: jserMembersL (k2, v2) ms'))
          ++ rbraceC :: rest))
        = '"' :: ((escList k.data ++ '"' :: ':' :: ' ' ::
            (jserL v ++ ',' :: ' ' :: jserMembersL (k2, v2) ms')) ++ rbraceC :: rest) := by
      rw [skipWs_append_ws _ _ hw, List.cons_append, skipWs_cons_not (by decide)]
    rw [hskw]
    have hsk1 : skipWs (':' :: ' ' ::
          (jserL v ++ ',' :: ' ' :: (jserMembersL (k2, v2) ms' ++ rbraceC :: rest)))
        = ':' :: ' ' ::
          (jserL v ++ ',' :: ' ' :: (jserMembersL (k2, v2) ms' ++ rbraceC :: rest)) :=
      skipWs_cons_not (by decide)
    have hsk2 : skipWs (',' :: ' ' :: (jserMembersL (k2, v2) ms' ++ rbraceC :: rest))
        = ',' :: ' ' :: (jserMembersL (k2, v2) ms' ++ rbraceC :: rest) :=
      skipWs_cons_not (by decide)
    have hval : parseF (m2 + 1) .value (' ' ::
          (jserL v ++ ',' :: ' ' :: (jserMembersL (k2, v2) ms' ++ rbraceC :: rest)))
        = some (v, ',' :: ' ' :: (jserMembersL (k2, v2) ms' ++ rbraceC :: rest)) := by
      have hw1 : ∀ c ∈ [' '], jsonWs c = true := by
        intro c hc
        simp at hc
        rw [hc]
        rfl
      have hws := parseF_value_ws [' '] hw1 m2
        (jserL v ++ ',' :: ' ' :: (jserMembersL (k2, v2) ms' ++ rbraceC :: rest))
      rw [List.singleton_append] at hws
      rw [hws]
      exact hrt (k, v) (by simp) _ (m2 + 1) (by
        simp at hf ⊢
        omega)
    have hfresh : k ∉ acc.map Prod.fst := by
      rw [List.map_append] at hnd
      have hdisj := List.disjoint_of_nodup_append hnd
      intro hk
      exact hdisj hk (by simp)
    have hrec := parse_members ms' (k2, v2) (acc ++ [(k, v)]) [' '] rest (m2 + 1)
      (fun p hp => hrt p (by simp at hp ⊢; tauto))
      (fun p hp => hrl p (by simp at hp ⊢; tauto))
      (by intro c hc; simp at hc; rw [hc]; rfl)
      (by
        have hre : acc ++ [(k, v)] ++ (k2, v2) :: ms' = acc ++ (k, v) :: (k2, v2) :: ms' := by
          simp
        rw [hre]
        exact hnd)
      (by simp at hf; omega)
    rw [List.singleton_append] at hrec
    simp [parseJStrBody_esc, hsk1, hsk2, hval, objInsert_fresh acc k v hfresh, hrec]

theorem jserMembersL_head (m : String × Json) (ms : List (String × Json)) :
    ∃ t, jserMembersL m ms = '"' :: t := by
  obtain ⟨k, v⟩ := m
  cases ms with
  | nil =>
    exact ⟨escList k.data ++ '"' :: ':' :: ' ' :: jserL v, by simp [jserMembersL]⟩
  | cons m2 ms2 =>
    exact ⟨escList k.data ++ '"' :: ':' :: ' ' ::
      (jserL v ++ ',' :: ' ' :: jserMembersL m2 ms2), by simp [jserMembersL]⟩

/-- The value round trip: the parser recovers every serialized record
value exactly, leaving the trailing input untouched, whenever the fuel
exceeds the serialized length. -/
theorem parse_jser : ∀ (j : Json), RecLike j → ValueRT j := by
  intro j hj
  induction hj with
  | str s =>
    intro rest fuel hf
    have he : jserL (.str s) = '"' :: (escList s.data ++ ['"']) := by
      simp [jserL]
    rw [he] at hf ⊢
    obtain ⟨n, rfl⟩ : ∃ n, fuel = n + 1 := ⟨fuel - 1, by omega⟩
    rw [List.cons_append, parseF_value_quote]
    have hshape : (escList s.data ++ ['"']) ++ rest = escList s.data ++ '"' :: rest := by
      simp
    rw [hshape, parseJStrBody_esc]
    rfl
  | arr xs h ih =>
    cases xs with
    | nil =>
      intro rest fuel hf
      have he : jserL (.arr []) = '[' :: [']'] := by
        simp [jserL]
      rw [he] at hf ⊢
      obtain ⟨n, rfl⟩ : ∃ n, fuel = n + 1 := ⟨fuel - 1, by omega⟩
      rw [List.cons_append, parseF_value_arr_step]
      have hsk : skipWs (']' :: rest) = ']' :: rest := skipWs_cons_not (by decide)
      have hshape : [']'] ++ rest = ']' :: rest := rfl
      rw [hshape, hsk]
      rfl
    | cons x xs' =>
      intro rest fuel hf
      have he : jserL (.arr (x :: xs')) = '[' :: (jserItemsL x xs' ++ [']']) := by
        simp [jserL]
      rw [he] at hf ⊢
      obtain ⟨n, rfl⟩ : ∃ n, fuel = n + 1 := ⟨fuel - 1, by omega⟩
      rw [List.cons_append, parseF_value_arr_step]
      have hshape : (jserItemsL x xs' ++ [']']) ++ rest = jserItemsL x xs' ++ ']' :: rest := by
        simp
      rw [hshape]
      obtain ⟨t, hdec⟩ := jserItemsL_decompose x xs'
      have hrlx : RecLike x := h x (by simp)
      obtain ⟨c, ct, hhead, hws, hbr, _, _⟩ := jserL_head hrlx
      have hskall : skipWs (jserItemsL x xs' ++ ']' :: rest)
          = jserItemsL x xs' ++ ']' :: rest := by
        rw [hdec, List.append_assoc]
        exact skipWs_jserL hrlx _
      rw [hskall]
      have hcons : jserItemsL x xs' ++ ']' :: rest = c :: (ct ++ (t ++ ']' :: rest)) := by
        rw [hdec, hhead]
        simp
      have hred : (match c :: (ct ++ (t ++ ']' :: rest)) with
          | c2 :: cs2 => if c2 = ']' then some (Json.arr [], cs2)
            else parseF n (.arrItems []) (c :: (ct ++ (t ++ ']' :: rest)))
          | [] => none)
          = parseF n (.arrItems []) (c :: (ct ++ (t ++ ']' :: rest))) := by
        simp [hbr]
      rw [hcons, hred, ← hcons]
      have hitems := parse_items xs' x [] [] rest n
        (fun y hy => ih y hy)
        h
        (by intro cc hcc; simp at hcc)
        (by simp at hf; omega)
      simp only [List.nil_append] at hitems
      rw [hitems]
  | obj ms hnd h ih =>
    cases ms with
    | nil =>
      intro rest fuel hf
      have he : jserL (.obj []) = lbraceC :: [rbraceC] := by
        simp [jserL]
      rw [he] at hf ⊢
      obtain ⟨n, rfl⟩ : ∃ n, fuel = n + 1 := ⟨fuel - 1, by omega⟩
      rw [List.cons_append, parseF_value_obj_step]
      have hsk : skipWs (rbraceC :: rest) = rbraceC :: rest := skipWs_cons_not (by decide)
      have hshape : [rbraceC] ++ rest = rbraceC :: rest := rfl
      rw [hshape, hsk]
      rfl
    | cons m ms' =>
      intro rest fuel hf
      have he : jserL (.obj (m :: ms')) = lbraceC :: (jserMembersL m ms' ++ [rbraceC]) := by
        simp [jserL]
      rw [he] at hf ⊢
      obtain ⟨n, rfl⟩ : ∃ n, fuel = n + 1 := ⟨fuel - 1, by omega⟩
      rw [List.cons_append, parseF_value_obj_step]
      have hshape : (jserMembersL m ms' ++ [rbraceC]) ++ rest
          = jserMembersL m ms' ++ rbraceC :: rest := by
        simp
      rw [hshape]
      obtain ⟨mt, hmt⟩ := jserMembersL_head m ms'
      have hmem : jserMembersL m ms' ++ rbraceC :: rest
          = '"' :: (mt ++ rbraceC :: rest) := by
        rw [hmt, List.cons_append]
      have hskall : skipWs (jserMembersL m ms' ++ rbraceC :: rest)
          = jserMembersL m ms' ++ rbraceC :: rest := by
        rw [hmem]
        exact skipWs_cons_not (by decide)
      rw [hskall]
      have hred : (match '"' :: (mt ++ rbraceC :: rest) with
          | c2 :: cs2 => if c2 = rbraceC then some (Json.obj [], cs2)
            else parseF n (.objItems []) ('"' :: (mt ++ rbraceC :: rest))
          | [] => none)
          = parseF n (.objItems []) ('"' :: (mt ++ rbraceC :: rest)) := by
        simp [show ¬(('"' : Char) = rbraceC) from by decide]
      rw [hmem, hred, ← hmem]
      have hmembers := parse_members ms' m [] [] rest n
        (fun p hp => ih p hp)
        h
        (by intro cc hcc; simp at hcc)
        (by simpa using hnd)
        (by simp at hf; omega)
      simp only [List.nil_append] at hmembers
      rw [hmembers]

/-- A serialized object starts with the left brace and ends with the right
brace, so the fence-stripping block leaves it untouched. -/
theorem strip_fencesL_jser_obj (ms : List (String × Json)) :
    strip_fencesL (jserL (.obj ms)) = jserL (.obj ms) := by
  obtain ⟨mid, hmid⟩ : ∃ mid, jserL (.obj ms) = lbraceC :: (mid ++ [rbraceC]) := by
    cases ms with
    | nil => exact ⟨[], by simp [jserL]⟩
    | cons m ms' => exact ⟨jserMembersL m ms', by simp [jserL]⟩
  rw [hmid]
  have hsh : lbraceC :: (mid ++ [rbraceC]) = (lbraceC :: mid) ++ [rbraceC] := by
    simp
  have hstrip : pyStripL (lbraceC :: (mid ++ [rbraceC])) = lbraceC :: (mid ++ [rbraceC]) := by
    rw [pyStripL_eq]
    have h1 : List.dropWhile pyIsSpace (lbraceC :: (mid ++ [rbraceC]))
        = lbraceC :: (mid ++ [rbraceC]) := by
      rw [List.dropWhile_cons]
      simp [show pyIsSpace lbraceC = false from by decide]
    rw [h1, hsh]
    exact List.rdropWhile_concat_neg (p := pyIsSpace) (l := lbraceC :: mid) rbraceC
      (by decide)
  have hlead : stripLeadFence (lbraceC :: (mid ++ [rbraceC]))
      = lbraceC :: (mid ++ [rbraceC]) := by
    have hj : pyStartswith (lbraceC :: (mid ++ [rbraceC])) fenceJsonTok = false := by
      have e : fenceJsonTok = Char.ofNat 96 :: "``json".data := by decide
      rw [e]
      show ((Char.ofNat 96 : Char) == lbraceC && _) = false
      rw [show ((Char.ofNat 96 : Char) == lbraceC) = false from by decide]
      simp
    have h3 : pyStartswith (lbraceC :: (mid ++ [rbraceC])) fenceTok = false := by
      have e : fenceTok = Char.ofNat 96 :: "``".data := by decide
      rw [e]
      show ((Char.ofNat 96 : Char) == lbraceC && _) = false
      rw [show ((Char.ofNat 96 : Char) == lbraceC) = false from by decide]
      simp
    rw [stripLeadFence, hj, h3]
    simp
  have htrail : stripTrailFence (lbraceC :: (mid ++ [rbraceC]))
      = lbraceC :: (mid ++ [rbraceC]) := by
    have hend : pyEndswith (lbraceC :: (mid ++ [rbraceC])) fenceTok = false := by
      rw [pyEndswith]
      have hrev : (lbraceC :: (mid ++ [rbraceC])).reverse
          = rbraceC :: (lbraceC :: mid).reverse := by
        rw [hsh, List.reverse_append]
        simp
      rw [hrev]
      have e : fenceTok.reverse = Char.ofNat 96 :: "``".data := by decide
      rw [e]
      show ((Char.ofNat 96 : Char) == rbraceC && _) = false
      rw [show ((Char.ofNat 96 : Char) == rbraceC) = false from by decide]
      simp
    rw [stripTrailFence, hend]
    simp
  rw [strip_fencesL, hstrip, hlead, htrail, hstrip]

/-- C6: the round trip. Serializing any hand-built clinical-record value (a
JSON object of strings, lists and nested objects with distinct keys) and
feeding the text through the normalizer's fence-stripping and parse steps
returns exactly the original object. -/
theorem record_roundtrip :
    ∀ j : Json, RecLike j → (∃ ms, j = Json.obj ms) →
      normalizeReply (jserialize j) = .ok j := by
  rintro j hj ⟨ms, rfl⟩
  have hstrip : strip_fences (jserialize (.obj ms)) = jserialize (.obj ms) := by
    show (⟨strip_fencesL (jserL (.obj ms))⟩ : String) = ⟨jserL (.obj ms)⟩
    rw [strip_fencesL_jser_obj]
  rw [normalizeReply, hstrip]
  have hparse : jsonParse (jserialize (.obj ms)) = some (.obj ms) := by
    rw [jsonParse]
    have hdata : (jserialize (.obj ms)).data = jserL (.obj ms) := rfl
    rw [hdata]
    have hv := parse_jser _ hj [] (2 * (jserL (.obj ms)).length + 2) (by omega)
    rw [List.append_nil] at hv
    rw [hv]
    rfl
  rw [hparse]

/-- Witness for C6 at a concrete two-field record with a nested list. -/
theorem record_roundtrip_witness :
    normalizeReply (jserialize (.obj [("diagnosis", .arr [.str "#高血圧症"]),
        ("treatment_plan", .str "")]))
      = .ok (.obj [("diagnosis", .arr [.str "#高血圧症"]), ("treatment_plan", .str "")]) := by
  refine record_roundtrip _ ?_ ⟨_, rfl⟩
  refine RecLike.obj _ (by decide) ?_
  intro m hm
  simp only [List.mem_cons, List.mem_singleton] at hm
  rcases hm with rfl | rfl | hm
  · refine RecLike.arr _ ?_
    intro x hx
    simp only [List.mem_singleton] at hx
    subst hx
    exact RecLike.str _
  · exact RecLike.str _
  · simp at hm

end FtStok
